import Mathlib

/-!
# Audiobook player: playback state machine and track registry

A shallow embedding of `server/src/apps/audiobook/AudiobookPlayer.cpp` and
`server/src/systems/audio/AudioTrack.cpp`.

* `std::string` is a list of characters (`Str`).
* Raw `AudioTask*` pointers are `Option Nat`: `none` is `nullptr`, `some p` is the
  `p`-th task created by the audio manager.
* An action returns `Option AudiobookPlayer`; `none` stands for a run that does not
  return normally (null or dangling dereference, out-of-range `operator[]`,
  an uncaught exception, `exit`).
* Logging is not represented. The timer thread is represented by its joinable flag, the
  reset it performs on start, and a separate tick function.
* `int` members are `Int`; the product `fastForwardedSeconds_ * 1000` handed to
  `seek(int)` is reduced to the 32-bit range (`wrapInt`).
* `mutex_` is not part of the player state; the lock discipline is stated on a separate
  trace of lock events and member accesses per function.
* Reachable states are generated from the constructor's result by the bound actions of
  the current state, the finished callback, timer passes and engine reports.
-/

namespace Pdb

/-- A `std::string`. -/
abbrev Str := List Char

/-! ## Characters and decimal numerals -/

/-- The characters `std::isspace` accepts in the "C" locale: space and `\t \n \v \f \r`. -/
def isSpace (c : Char) : Bool := c.toNat = 32 || (9 ≤ c.toNat && c.toNat ≤ 13)

/-- The characters `[0-9]`. -/
def isDigit (c : Char) : Bool := 48 ≤ c.toNat && c.toNat ≤ 57

/-- The line feed character. -/
def newline : Char := Char.ofNat 10

/-- The carriage return character. -/
def carriageReturn : Char := Char.ofNat 13

/-- The decimal digit character of `d < 10`. -/
def digitChar (d : Nat) : Char := Char.ofNat (48 + d)

/-- Decimal digits of `n`, most significant first, prepended to `acc`. -/
def decimalAux : Nat → Nat → Str → Str
  | 0, _, acc => acc
  | fuel + 1, n, acc =>
    if n < 10 then digitChar n :: acc
    else decimalAux fuel (n / 10) (digitChar (n % 10) :: acc)

/-- Decimal numeral of a natural number (no leading zeros, `0` is "0"). -/
def decimal (n : Nat) : Str := decimalAux (n + 1) n []

/-- `std::to_string(int)`. -/
def to_string (x : Int) : Str :=
  if x < 0 then '-' :: decimal x.natAbs else decimal x.natAbs

/-- Value of a run of decimal digits. -/
def digitsValue (ds : Str) : Nat := ds.foldl (fun a c => 10 * a + (c.toNat - 48)) 0

/-- `std::stoi(str)` in base 10: leading white space is skipped, an optional sign is
read, then the longest run of digits. `none` stands for `std::invalid_argument`
(no digit) and `std::out_of_range` (value outside 32-bit `int`). -/
def stoi (s : Str) : Option Int :=
  let s1 := s.dropWhile isSpace
  let neg := s1.head? = some '-'
  let s2 := if s1.head? = some '-' ∨ s1.head? = some '+' then s1.tail else s1
  let ds := s2.takeWhile isDigit
  if ds = [] then none
  else
    let r : Int := if neg then -(digitsValue ds : Int) else (digitsValue ds : Int)
    if -2147483648 ≤ r ∧ r ≤ 2147483647 then some r else none

/-! ## Tracks -/

/-- `AudioTrack::Format`. -/
inductive Format
  | MP3
  | WAV
  deriving DecidableEq, Repr

/-- `AudioTrack::Type`. -/
inductive TrackType
  | STANDARD
  | VOICE_MESSAGE
  deriving DecidableEq, Repr

/-- `AudioTrack` (the volume scalar, a float, is left out). -/
structure AudioTrack where
  filePath_ : Str
  trackName_ : Str
  format_ : Format
  type_ : TrackType
  lastPlayedMillisecond_ : Int
  deriving DecidableEq, Repr

/-- `AudioTrack::setLastPlayedMillisecond`. -/
def AudioTrack.setLastPlayedMillisecond (t : AudioTrack) (ms : Int) : AudioTrack :=
  { t with lastPlayedMillisecond_ := ms }

/-- `filePath.substr(lastSlashIndex + 1)` with
`lastSlashIndex = filePath.find_last_of("/\\")`: the part after the last slash or
backslash, the whole path when there is none (`npos + 1 == 0`). -/
def fileNameOf (filePath : Str) : Str :=
  (filePath.reverse.takeWhile (fun c => !(c = '/' || c.toNat = 92))).reverse

/-- `fileName.substr(0, fileName.length() - 4)`: the length is unsigned, so for a name
shorter than four characters the count wraps around and the whole name is kept. -/
def stripExtension (fileName : Str) : Str :=
  if fileName.length < 4 then fileName else fileName.take (fileName.length - 4)

/-- The last three characters, `s.substr(s.length() - 3, 3)`; `none` when the string is
shorter than three characters (`substr` throws `std::out_of_range`). -/
def lastThree (s : Str) : Option Str :=
  if s.length < 3 then none else some (s.drop (s.length - 3))

/-- `AudioTrack::AudioTrack(filePath, volume, type)`, after the body in `AudioTrack.cpp`:
the format comes from the last three characters (`exit(0)` on anything else), the
track name is the file name without its last four characters.
Modelled from the spec: the initial last-played offset, whose member initialiser is in
the header, is 0 ("a track absent from a prior save defaults to offset 0"). -/
def AudioTrack.create (filePath : Str) (type : TrackType) : Option AudioTrack :=
  match lastThree filePath with
  | none => none
  | some ext =>
    if ext = "mp3".toList then
      some { filePath_ := filePath, trackName_ := stripExtension (fileNameOf filePath),
             format_ := Format.MP3, type_ := type, lastPlayedMillisecond_ := 0 }
    else if ext = "wav".toList then
      some { filePath_ := filePath, trackName_ := stripExtension (fileNameOf filePath),
             format_ := Format.WAV, type_ := type, lastPlayedMillisecond_ := 0 }
    else none

/-- Modelled from the spec: the constructor `AudioTrack(name, offset)` used for registry
entries is not in `AudioTrack.cpp`; it keeps `tokens[0]` as the name and
`stoi(tokens[1])` as the last-played offset. The other members of an entry are never
read; they are given fixed values. -/
def AudioTrack.info (name : Str) (offset : Int) : AudioTrack :=
  { filePath_ := [], trackName_ := name, format_ := Format.MP3,
    type_ := TrackType.STANDARD, lastPlayedMillisecond_ := offset }

/-! ## Audio tasks and the audio manager -/

/-- `AudioTask::Element`: what a task is asked to play, either the voice clip found
under a key (`voiceManager_.getSynthesizedVoiceAudioTracks().at(key)`, taken to find
the key: the vocabulary is synthesized at start-up) or an audiobook track. -/
inductive Element
  | voice (key : Str)
  | track (t : AudioTrack)
  deriving DecidableEq, Repr

/-- A call made on an `AudioTask` through a pointer, in the order the calls are made. -/
inductive TaskCall
  | seek (offsetInMilliseconds : Int)
  | pauseToggle
  | stop
  | waitForEnd
  deriving DecidableEq, Repr

/-- Modelled from the spec: `AudioTask` is declared outside the given sources. A task
plays an ordered list of elements with an optional completion callback, reports
whether its engine is pausable and paused, reports the played position in
milliseconds, and records the calls made on it. -/
structure AudioTask where
  elements : List Element
  hasCallback : Bool
  pausable : Bool
  paused : Bool
  stopped : Bool
  position : Int
  calls : List TaskCall
  deriving DecidableEq, Repr

/-- Modelled from the spec: `pause_toggle()` delegates to the engine, whose
`AudioStream::pauseToggle` flips `paused_`. -/
def AudioTask.pauseToggle (t : AudioTask) : AudioTask :=
  { t with paused := !t.paused, calls := t.calls ++ [TaskCall.pauseToggle] }

/-- Modelled from the spec: `seek(offset_ms)` repositions the engine's read cursor; the
argument the player passes is the signed distance covered by the ramp, so the
position moves by that offset. -/
def AudioTask.seek (t : AudioTask) (offsetInMilliseconds : Int) : AudioTask :=
  { t with position := t.position + offsetInMilliseconds,
           calls := t.calls ++ [TaskCall.seek offsetInMilliseconds] }

/-- Modelled from the spec: `stop()` halts output. -/
def AudioTask.stop (t : AudioTask) : AudioTask :=
  { t with stopped := true, calls := t.calls ++ [TaskCall.stop] }

/-- Modelled from the spec: `wait_for_end()` blocks until the output has drained. -/
def AudioTask.waitForEnd (t : AudioTask) : AudioTask :=
  { t with calls := t.calls ++ [TaskCall.waitForEnd] }

/-- Modelled from the spec: the audio manager owns every task it created; whether the
engine of the `n`-th task is pausable is decided outside the player. -/
structure AudioManager where
  tasks : List AudioTask
  pausableOf : Nat → Bool

/-- Modelled from the spec: `AudioManager::play` creates a task that starts running at
position 0 and returns a pointer to it. -/
def AudioManager.play (m : AudioManager) (elements : List Element) (hasCallback : Bool) :
    AudioManager × Nat :=
  ({ m with tasks := m.tasks ++ [{ elements := elements, hasCallback := hasCallback,
                                   pausable := m.pausableOf m.tasks.length,
                                   paused := false, stopped := false, position := 0,
                                   calls := [] }] },
   m.tasks.length)

/-! ## The player -/

/-- `AudiobookPlayer::State`. -/
inductive State
  | CHOOSING
  | PLAYING
  | PAUSED
  | REWINDING
  | FAST_FORWARDING
  deriving DecidableEq, Repr

/-- The members of `AudiobookPlayer` the actions read and write, the joinable flag of
`fastForwardingTimerThread_`, and the content of `../data/audiobook_data.txt`. -/
structure AudiobookPlayer where
  audioManager_ : AudioManager
  fastForwardingSpeed_ : Int
  fastForwardedSeconds_ : Int
  currentAudioTask_ : Option Nat
  pausedAudioTask_ : Option Nat
  audioTracks_ : List AudioTrack
  audioTracksInfo_ : List AudioTrack
  currentTrackIndex_ : Nat
  currentState_ : State
  timerJoinable : Bool
  registry : Str

namespace AudiobookPlayer

/-- The task behind a pointer value. -/
def task? (s : AudiobookPlayer) (p : Nat) : Option AudioTask := s.audioManager_.tasks[p]?

/-- A method call `ptr->f()`; dereferencing `nullptr` or a pointer to no task does not
return. -/
def callTask (s : AudiobookPlayer) (ptr : Option Nat) (f : AudioTask → AudioTask) :
    Option AudiobookPlayer :=
  match ptr with
  | none => none
  | some p =>
    match s.audioManager_.tasks[p]? with
    | none => none
    | some t =>
      some { s with audioManager_ :=
               { s.audioManager_ with tasks := s.audioManager_.tasks.set p (f t) } }

/-- The guarded call `if (ptr) ptr->f();`. -/
def callTaskIfSet (s : AudiobookPlayer) (ptr : Option Nat) (f : AudioTask → AudioTask) :
    Option AudiobookPlayer :=
  match ptr with
  | none => some s
  | some p => callTask s (some p) f

/-- `AudiobookPlayer::changeStateTo`. -/
def changeStateTo (s : AudiobookPlayer) (st : State) : AudiobookPlayer :=
  { s with currentState_ := st }

/-- `AudiobookPlayer::play`: `currentAudioTask_ = audioManager_.play(elements, callback)`. -/
def play (s : AudiobookPlayer) (elements : List Element) (hasCallback : Bool) :
    AudiobookPlayer :=
  { s with audioManager_ := (s.audioManager_.play elements hasCallback).1,
           currentAudioTask_ := some (s.audioManager_.play elements hasCallback).2 }

/-- One registry line per track: `name + " " + to_string(offset) + "\n"`. -/
def registryLine (t : AudioTrack) : Str :=
  t.trackName_ ++ [' '] ++ to_string t.lastPlayedMillisecond_ ++ [newline]

/-- The text `saveTracksInfo` writes for a track list. -/
def registryText (tracks : List AudioTrack) : Str :=
  (tracks.map registryLine).flatten

/-- `AudiobookPlayer::saveTracksInfo`: the registry file is truncated and rewritten, one
line per track (the file is taken to open; the other branch only logs). -/
def saveTracksInfo (s : AudiobookPlayer) : AudiobookPlayer :=
  { s with registry := registryText s.audioTracks_ }

/-- `AudiobookPlayer::updateCurrentTrackInfo(audioTask)`. -/
def updateCurrentTrackInfo (s : AudiobookPlayer) (ptr : Option Nat) :
    Option AudiobookPlayer :=
  match ptr with
  | none => none
  | some p =>
    match s.audioManager_.tasks[p]?, s.audioTracks_[s.currentTrackIndex_]? with
    | some t, some tr =>
      let tracks := s.audioTracks_.set s.currentTrackIndex_ (tr.setLastPlayedMillisecond t.position)
      some (saveTracksInfo { s with audioTracks_ := tracks })
    | _, _ => none

/-- The step `if (fastForwardingTimerThread_.joinable()) fastForwardingTimerThread_.join();`. -/
def joinTimer (s : AudiobookPlayer) : AudiobookPlayer :=
  { s with timerJoinable := false }

/-- The step `fastForwardingTimerThread_ = std::thread(&fastForwardingTimerFunction, this)`
together with the first statement of the thread, `fastForwardedSeconds_ = 0`. -/
def startTimer (s : AudiobookPlayer) : AudiobookPlayer :=
  { s with timerJoinable := true, fastForwardedSeconds_ := 0 }

/-- One pass of the loop of `fastForwardingTimerFunction`: while the speed is not zero,
`fastForwardedSeconds_ += fastForwardingSpeed_`. -/
def fastForwardingTimerTick (s : AudiobookPlayer) : AudiobookPlayer :=
  if s.timerJoinable = true ∧ s.fastForwardingSpeed_ ≠ 0 then
    { s with fastForwardedSeconds_ := s.fastForwardedSeconds_ + s.fastForwardingSpeed_ }
  else s

/-- The value a 32-bit `int` takes for a mathematical integer: reduction modulo `2^32`
into `-2^31 .. 2^31 - 1` (two's complement). -/
def wrapInt (x : Int) : Int := (x + 2147483648) % 4294967296 - 2147483648

/-- The argument `fastForwardedSeconds_ * 1000` handed to `seek(int offsetInMilliseconds)`:
the product is an `int`, so outside the 32-bit range it wraps around. -/
def rampedOffset (fastForwardedSeconds : Int) : Int := wrapInt (fastForwardedSeconds * 1000)

/-! ## The speed ramp -/

/-- Conversion `int → float`: round to nearest, ties to even, with a 24-bit significand.
The result is an integer again, so it is given as one. -/
def toFloat (x : Int) : Int :=
  if x.natAbs < 16777216 then x
  else
    let e := Nat.log2 x.natAbs - 23
    let q := x.natAbs / 2 ^ e
    let r := x.natAbs % 2 ^ e
    let q1 := if r > 2 ^ (e - 1) ∨ (r = 2 ^ (e - 1) ∧ q % 2 = 1) then q + 1 else q
    x.sign * ((q1 * 2 ^ e : Nat) : Int)

/-- The statement `fastForwardingSpeed_ *= 0.5f` on an `int`: the value is converted to
`float`, halved (exact), and converted back by truncation toward zero. -/
def mulHalf (x : Int) : Int := Int.tdiv (toFloat x) 2

/-- `std::abs(int)`. -/
def absInt (x : Int) : Int := if x < 0 then -x else x

/-- The voice key `std::to_string(std::abs(speed)) + "x"`. -/
def speedKey (speed : Int) : Str := to_string (absInt speed) ++ "x".toList

/-- The `if / else if` chain at the head of `AudiobookPlayer::rewind`. The flag is `true`
when the chain ended in `return`. -/
def rewindBranch (s : AudiobookPlayer) : Option (Bool × AudiobookPlayer) :=
  if s.fastForwardingSpeed_ = 0 then
    let checkedAudioTask :=
      if s.currentState_ = State.PLAYING then s.currentAudioTask_
      else if s.currentState_ = State.PAUSED then s.pausedAudioTask_
      else none
    match checkedAudioTask with
    | none => some (true, s)
    | some p =>
      match s.task? p with
      | none => none
      | some t =>
        if t.pausable = false then some (true, s)
        else
          let toggled :=
            if t.paused = false then
              (callTask { s with pausedAudioTask_ := s.currentAudioTask_ } (some p)
                AudioTask.pauseToggle).bind (fun x => updateCurrentTrackInfo x (some p))
            else some s
          toggled.map (fun x =>
            (false, startTimer (joinTimer
              (changeStateTo { x with fastForwardingSpeed_ := -2 } State.REWINDING))))
  else if s.fastForwardingSpeed_ = 2 then
    let s1 := joinTimer { s with fastForwardingSpeed_ := 0 }
    let s2 := { s1 with currentAudioTask_ := s1.pausedAudioTask_ }
    (callTask s2 s2.currentAudioTask_
        (fun t => t.seek (rampedOffset s2.fastForwardedSeconds_))).bind (fun s3 =>
      (callTask s3 s3.currentAudioTask_ AudioTask.pauseToggle).bind (fun s4 =>
        (updateCurrentTrackInfo s4 s4.currentAudioTask_).map (fun s5 =>
          (false, changeStateTo s5 State.PLAYING))))
  else if s.fastForwardingSpeed_ < 0 then
    some (false, { s with fastForwardingSpeed_ := s.fastForwardingSpeed_ * 2 })
  else if s.fastForwardingSpeed_ > 0 then
    some (false, { s with fastForwardingSpeed_ := mulHalf s.fastForwardingSpeed_ })
  else some (false, s)

/-- The step `if (fastForwardingSpeed_ < -128) fastForwardingSpeed_ = -128;`. -/
def rewindClamp (s : AudiobookPlayer) : AudiobookPlayer :=
  if s.fastForwardingSpeed_ < -128 then { s with fastForwardingSpeed_ := -128 } else s

/-- The voice prompts at the end of `AudiobookPlayer::rewind`. -/
def rewindAnnounce (s : AudiobookPlayer) : Option AudiobookPlayer :=
  if s.fastForwardingSpeed_ = -2 then
    some (play s [Element.voice "rewinding".toList, Element.voice "2x".toList] false)
  else if s.fastForwardingSpeed_ ≠ 0 then
    (callTaskIfSet s s.currentAudioTask_ AudioTask.stop).map (fun x =>
      play x [Element.voice (speedKey x.fastForwardingSpeed_)] false)
  else some s

/-- `AudiobookPlayer::rewind`. -/
def rewind (s : AudiobookPlayer) : Option AudiobookPlayer :=
  match rewindBranch s with
  | none => none
  | some (true, s1) => some s1
  | some (false, s1) => rewindAnnounce (rewindClamp s1)

/-- The `if / else if` chain at the head of `AudiobookPlayer::fastForward`. The flag is
`true` when the chain ended in `return`. -/
def fastForwardBranch (s : AudiobookPlayer) : Option (Bool × AudiobookPlayer) :=
  if s.fastForwardingSpeed_ = 0 then
    let checkedAudioTask :=
      if s.currentState_ = State.PLAYING then s.currentAudioTask_
      else if s.currentState_ = State.PAUSED then s.pausedAudioTask_
      else none
    match checkedAudioTask with
    | none => some (true, s)
    | some p =>
      match s.task? p with
      | none => none
      | some t =>
        if t.pausable = false then some (true, s)
        else
          let toggled :=
            if t.paused = false then
              (callTask { s with pausedAudioTask_ := s.currentAudioTask_ } (some p)
                AudioTask.pauseToggle).bind (fun x => updateCurrentTrackInfo x (some p))
            else some s
          toggled.map (fun x =>
            (false, startTimer (joinTimer
              (changeStateTo { x with fastForwardingSpeed_ := 2 } State.FAST_FORWARDING))))
  else if s.fastForwardingSpeed_ = -2 then
    let s1 := joinTimer { s with fastForwardingSpeed_ := 0 }
    let s2 := { s1 with currentAudioTask_ := s1.pausedAudioTask_ }
    (callTask s2 s2.pausedAudioTask_
        (fun t => t.seek (rampedOffset s2.fastForwardedSeconds_))).bind (fun s3 =>
      (callTask s3 s3.currentAudioTask_ AudioTask.pauseToggle).bind (fun s4 =>
        (updateCurrentTrackInfo s4 s4.currentAudioTask_).map (fun s5 =>
          (false, changeStateTo s5 State.PLAYING))))
  else if s.fastForwardingSpeed_ < 0 then
    some (false, { s with fastForwardingSpeed_ := mulHalf s.fastForwardingSpeed_ })
  else if s.fastForwardingSpeed_ > 0 then
    some (false, { s with fastForwardingSpeed_ := s.fastForwardingSpeed_ * 2 })
  else some (false, s)

/-- The step `if (fastForwardingSpeed_ > 128) fastForwardingSpeed_ = 128;`. -/
def fastForwardClamp (s : AudiobookPlayer) : AudiobookPlayer :=
  if s.fastForwardingSpeed_ > 128 then { s with fastForwardingSpeed_ := 128 } else s

/-- The voice prompts at the end of `AudiobookPlayer::fastForward`. -/
def fastForwardAnnounce (s : AudiobookPlayer) : Option AudiobookPlayer :=
  if s.fastForwardingSpeed_ = 2 then
    some (play s [Element.voice "fast_forwarding".toList, Element.voice "2x".toList] false)
  else if s.fastForwardingSpeed_ ≠ 0 then
    (callTaskIfSet s s.currentAudioTask_ AudioTask.stop).map (fun x =>
      play x [Element.voice (speedKey x.fastForwardingSpeed_)] false)
  else some s

/-- `AudiobookPlayer::fastForward`. -/
def fastForward (s : AudiobookPlayer) : Option AudiobookPlayer :=
  match fastForwardBranch s with
  | none => none
  | some (true, s1) => some s1
  | some (false, s1) => fastForwardAnnounce (fastForwardClamp s1)

/-! ## Pause, stop, play and track selection -/

/-- `AudiobookPlayer::pauseToggle`. -/
def pauseToggle (s : AudiobookPlayer) : Option AudiobookPlayer :=
  if s.currentState_ = State.PAUSED ∨ s.currentState_ = State.FAST_FORWARDING
      ∨ s.currentState_ = State.REWINDING then
    match s.pausedAudioTask_ with
    | none => some s
    | some p =>
      match s.task? p with
      | none => none
      | some t =>
        if t.pausable = false then some s
        else
          let s1 := changeStateTo (joinTimer { s with fastForwardingSpeed_ := 0 }) State.PLAYING
          (callTask s1 s1.pausedAudioTask_
              (fun t => t.seek (rampedOffset s1.fastForwardedSeconds_))).bind (fun s2 =>
            (updateCurrentTrackInfo s2 s2.pausedAudioTask_).bind (fun s3 =>
              let s4 := play { s3 with fastForwardedSeconds_ := 0 }
                          [Element.voice "unpausing_audiobook".toList] false
              (callTask s4 s4.currentAudioTask_ AudioTask.waitForEnd).bind (fun s5 =>
                let resumed :=
                  match s5.pausedAudioTask_ with
                  | some q =>
                    (callTask s5 (some q) AudioTask.pauseToggle).map (fun (x : AudiobookPlayer) =>
                      { x with currentAudioTask_ := x.pausedAudioTask_ })
                  | none => some s5
                resumed.map (fun (s6 : AudiobookPlayer) => { s6 with pausedAudioTask_ := none }))))
  else
    match s.currentAudioTask_ with
    | none => some s
    | some c =>
      match s.task? c, s.audioTracks_[s.currentTrackIndex_]? with
      | none, _ => none
      | some t, track =>
        if t.pausable = false then some s
        else
          match track with
          | none => none
          | some tr =>
            let tracks := s.audioTracks_.set s.currentTrackIndex_
                            (tr.setLastPlayedMillisecond t.position)
            let s1 := saveTracksInfo { s with audioTracks_ := tracks }
            let s2 := changeStateTo (joinTimer { s1 with fastForwardingSpeed_ := 0 }) State.PAUSED
            (callTask s2 s2.currentAudioTask_
                (fun t => t.seek (rampedOffset s2.fastForwardedSeconds_))).bind (fun s3 =>
              (updateCurrentTrackInfo s3 s3.currentAudioTask_).bind (fun s4 =>
                (callTaskIfSet { s4 with fastForwardedSeconds_ := 0 } s4.currentAudioTask_
                    AudioTask.pauseToggle).map (fun s5 =>
                  play { s5 with pausedAudioTask_ := s5.currentAudioTask_ }
                    [Element.voice "pausing_audiobook".toList] false)))

/-- `AudiobookPlayer::playChosenAudiobook`; the new task carries the finish callback. -/
def playChosenAudiobook (s : AudiobookPlayer) : Option AudiobookPlayer :=
  let s1 := changeStateTo s State.PLAYING
  match s1.audioTracks_[s1.currentTrackIndex_]? with
  | none => none
  | some currentAudioTrack =>
    (callTaskIfSet s1 s1.currentAudioTask_ AudioTask.stop).map (fun s2 =>
      play s2 [Element.voice "playing_audiobook".toList, Element.track currentAudioTrack] true)

/-- The lambda `audiobookFinishCallback` of `playChosenAudiobook`, run when the audiobook
task completes. -/
def audiobookFinishCallback (s : AudiobookPlayer) : Option AudiobookPlayer :=
  if s.currentState_ = State.PLAYING then
    match s.audioTracks_[s.currentTrackIndex_]? with
    | none => none
    | some tr =>
      let tracks := s.audioTracks_.set s.currentTrackIndex_ (tr.setLastPlayedMillisecond 0)
      let s1 := changeStateTo (saveTracksInfo { s with audioTracks_ := tracks }) State.CHOOSING
      some (play s1 [Element.voice "stopping_audiobook".toList] false)
  else some s

/-- The value `audioTracks_.size() - 1` in `size_t` arithmetic (64 bits). -/
def sizeMinusOne (n : Nat) : Nat := (n + 2 ^ 64 - 1) % 2 ^ 64

/-- `AudiobookPlayer::getCurrentTrack`: `audioTracks_[currentTrackIndex_]`. -/
def getCurrentTrack (s : AudiobookPlayer) : Option AudioTrack :=
  s.audioTracks_[s.currentTrackIndex_]?

/-- `AudiobookPlayer::switchToNextAudiobook`. -/
def switchToNextAudiobook (s : AudiobookPlayer) : Option AudiobookPlayer :=
  let s1 :=
    if s.currentTrackIndex_ = sizeMinusOne s.audioTracks_.length then
      { s with currentTrackIndex_ := 0 }
    else { s with currentTrackIndex_ := s.currentTrackIndex_ + 1 }
  (callTaskIfSet s1 s1.currentAudioTask_ AudioTask.stop).bind (fun s2 =>
    (getCurrentTrack s2).map (fun tr =>
      play s2 [Element.voice "chosen_next".toList, Element.voice tr.trackName_] false))

/-- `AudiobookPlayer::switchToPreviousAudiobook`. -/
def switchToPreviousAudiobook (s : AudiobookPlayer) : Option AudiobookPlayer :=
  let s1 :=
    if s.currentTrackIndex_ = 0 then
      { s with currentTrackIndex_ := sizeMinusOne s.audioTracks_.length }
    else { s with currentTrackIndex_ := s.currentTrackIndex_ - 1 }
  (callTaskIfSet s1 s1.currentAudioTask_ AudioTask.stop).bind (fun s2 =>
    (getCurrentTrack s2).map (fun tr =>
      play s2 [Element.voice "chosen_previous".toList, Element.voice tr.trackName_] false))

/-- `AudiobookPlayer::stopAudiobook`. -/
def stopAudiobook (s : AudiobookPlayer) : Option AudiobookPlayer :=
  let stopped :=
    match s.currentAudioTask_ with
    | some c =>
      (updateCurrentTrackInfo s (some c)).bind (fun x =>
        callTask x x.currentAudioTask_ AudioTask.stop)
    | none => some s
  stopped.map (fun s1 =>
    { play s1 [Element.voice "stopping_audiobook".toList] false with
      currentState_ := State.CHOOSING })

/-! ## The registry file and track discovery -/

/-- The lines `std::getline` reads: the text is cut at each line feed, and a last piece
without line feed is a line when it is not empty. `cur` holds the characters of the
line being read, last one first. -/
def getlineAux : Str → Str → List Str
  | [], cur => if cur = [] then [] else [cur.reverse]
  | c :: cs, cur => if c = newline then cur.reverse :: getlineAux cs [] else getlineAux cs (c :: cur)

/-- All lines of a file, as the loop `for (std::string line; std::getline(file, line);)`
sees them. -/
def getlines (text : Str) : List Str := getlineAux text []

/-- The words `std::istream_iterator<std::string>` yields: maximal runs of characters
that are not white space. `cur` holds the word being read, last character first. -/
def tokensAux : Str → Str → List Str
  | [], cur => if cur = [] then [] else [cur.reverse]
  | c :: cs, cur =>
    if isSpace c then (if cur = [] then tokensAux cs [] else cur.reverse :: tokensAux cs [])
    else tokensAux cs (c :: cur)

/-- The vector `tokens` built from a line. -/
def tokens (line : Str) : List Str := tokensAux line []

/-- The regex atom `.` (ECMAScript): any character but a line terminator. -/
def matchesDot (c : Char) : Bool := !(c = newline || c = carriageReturn)

/-- The alternative `[0-9]|[1-9][0-9]*` against a whole string. -/
def matchesNumber (d : Str) : Bool :=
  match d with
  | [] => false
  | [c] => isDigit c
  | c :: rest => isDigit c && c != '0' && rest.all isDigit

/-- `std::regex_match(line, trackInfoPattern_)` for the pattern
`^(.+)([[:space:]])([0-9]|[1-9][0-9]*)$`: some position `i` splits the line `ln` into a
non-empty run matched by `.+`, one white-space character, and a number. -/
def trackInfoPattern_ (ln : Str) : Bool :=
  (List.range ln.length).any (fun i =>
    0 < i && (ln.take i).all matchesDot
      && (match ln[i]? with
          | some c => isSpace c
          | none => false)
      && matchesNumber (ln.drop (i + 1)))

/-- The loop body of `loadTracksInfo` over the lines read: a line the pattern rejects is
skipped; for an accepted line `tokens[0]` and `std::stoi(tokens[1])` make an entry.
`none` when `tokens[1]` does not exist or `stoi` throws. -/
def loadLines : List Str → List AudioTrack → Option (List AudioTrack)
  | [], infos => some infos
  | line :: rest, infos =>
    if trackInfoPattern_ line then
      match tokens line with
      | name :: number :: _ =>
        match stoi number with
        | some offset => loadLines rest (infos ++ [AudioTrack.info name offset])
        | none => none
      | _ => none
    else loadLines rest infos

/-- `AudiobookPlayer::loadTracksInfo`; `file` is the content of
`../data/audiobook_data.txt`, `none` when it cannot be opened (`exit(0)`). -/
def loadTracksInfo (s : AudiobookPlayer) (file : Option Str) : Option AudiobookPlayer :=
  match file with
  | none => none
  | some text =>
    (loadLines (getlines text) s.audioTracksInfo_).map (fun infos =>
      { s with audioTracksInfo_ := infos })

/-- The inner loop of `synchronizeTracksInfo` for one track: every entry with the
track's name overwrites its offset, in file order. -/
def synchronizeTrack (infos : List AudioTrack) (audioTrack : AudioTrack) : AudioTrack :=
  infos.foldl (fun t audioTrackInfo =>
    if t.trackName_ = audioTrackInfo.trackName_ then
      t.setLastPlayedMillisecond audioTrackInfo.lastPlayedMillisecond_
    else t) audioTrack

/-- `AudiobookPlayer::synchronizeTracksInfo`. -/
def synchronizeTracksInfo (s : AudiobookPlayer) : AudiobookPlayer :=
  saveTracksInfo { s with audioTracks_ := s.audioTracks_.map (synchronizeTrack s.audioTracksInfo_) }

/-- An entry of the audiobook directory. -/
structure DirEntry where
  filename : Str
  regular : Bool
  deriving DecidableEq, Repr

/-- What `../data/audiobooks/` is on disk. -/
inductive DataPath
  | missing
  | notDirectory
  | directory (entries : List DirEntry)

/-- The extension test of `loadTracks`:
`(trackName.length() > 4) ? trackName.substr(trackName.length() - 3, 3) : ""`
compared with "mp3" and "wav". -/
def acceptedExtension (trackName : Str) : Bool :=
  let fileExtension := if trackName.length > 4 then trackName.drop (trackName.length - 3) else []
  fileExtension = "mp3".toList || fileExtension = "wav".toList

/-- The directory prefix `"../data/audiobooks/"`. -/
def audiobooksDir : Str := "../data/audiobooks/".toList

/-- The loop of `loadTracks` over the directory entries. -/
def loadEntries : List DirEntry → List AudioTrack → Option (List AudioTrack)
  | [], tracks => some tracks
  | e :: rest, tracks =>
    if e.regular && acceptedExtension e.filename then
      match AudioTrack.create (audiobooksDir ++ e.filename) TrackType.STANDARD with
      | some audioTrack => loadEntries rest (tracks ++ [audioTrack])
      | none => none
    else loadEntries rest tracks

/-- `AudiobookPlayer::loadTracks`. -/
def loadTracks (s : AudiobookPlayer) (path : DataPath) : Option AudiobookPlayer :=
  match path with
  | DataPath.missing => some s
  | DataPath.notDirectory => some s
  | DataPath.directory entries =>
    (loadEntries entries s.audioTracks_).map (fun tracks => { s with audioTracks_ := tracks })

/-- The constructor `AudiobookPlayer::AudiobookPlayer`: member initialisers, then
`loadTracks`, `loadTracksInfo`, `synchronizeTracksInfo`, index 0 and state `CHOOSING`.
The elapsed-seconds counter, which the initialiser list does not name, starts at 0. -/
def create (audioManager : AudioManager) (path : DataPath) (file : Option Str) :
    Option AudiobookPlayer :=
  let s0 : AudiobookPlayer :=
    { audioManager_ := audioManager, fastForwardingSpeed_ := 0, fastForwardedSeconds_ := 0,
      currentAudioTask_ := none, pausedAudioTask_ := none, audioTracks_ := [],
      audioTracksInfo_ := [], currentTrackIndex_ := 0, currentState_ := State.CHOOSING,
      timerJoinable := false, registry := file.getD [] }
  (loadTracks s0 path).bind (fun s1 =>
    (loadTracksInfo s1 file).map (fun s2 =>
      { synchronizeTracksInfo s2 with currentTrackIndex_ := 0, currentState_ := State.CHOOSING }))

/-! ## Runs of presses and well-formed pointers -/

/-- A run of `n` presses of the same button: the action is applied `n` times, and the
run does not return once a press does not. -/
def presses (f : AudiobookPlayer → Option AudiobookPlayer) :
    Nat → AudiobookPlayer → Option AudiobookPlayer
  | 0, s => some s
  | n + 1, s => (f s).bind (presses f n)

/-- The current-task pointer is null or points to a task of the audio manager. -/
def currentValid (s : AudiobookPlayer) : Prop :=
  ∀ p, s.currentAudioTask_ = some p → p < s.audioManager_.tasks.length

end AudiobookPlayer

open AudiobookPlayer

/-! ## Example inputs and the vocabulary of the statements -/

/-- The track made from `../data/audiobooks/intro.wav`, with resume offset 45000 ms. -/
def introTrack : AudioTrack :=
  { filePath_ := "../data/audiobooks/intro.wav".toList, trackName_ := "intro".toList,
    format_ := Format.WAV, type_ := TrackType.STANDARD, lastPlayedMillisecond_ := 45000 }

/-- The task `playChosenAudiobook` starts for `introTrack`, running, at 46200 ms. -/
def introTask : AudioTask :=
  { elements := [Element.voice "playing_audiobook".toList, Element.track introTrack],
    hasCallback := true, pausable := true, paused := false, stopped := false,
    position := 46200, calls := [] }

/-- A player in state `PLAYING` whose current task is `introTask`: the player built from
a directory holding `intro.wav` and the registry line "intro 45000", after the play
button and 46.2 seconds of playback. -/
def playingIntro : AudiobookPlayer :=
  { audioManager_ := { tasks := [introTask], pausableOf := fun _ => true },
    fastForwardingSpeed_ := 0, fastForwardedSeconds_ := 0, currentAudioTask_ := some 0,
    pausedAudioTask_ := none, audioTracks_ := [introTrack],
    audioTracksInfo_ := [AudioTrack.info "intro".toList 45000],
    currentTrackIndex_ := 0, currentState_ := State.PLAYING, timerJoinable := false,
    registry := "intro 45000".toList ++ [newline] }

/-- A fast-forward ramp at speed 2 that has run for three seconds: `introTask` is paused
and held as the paused task, the current task is the "2x" prompt. -/
def forwardRampIntro : AudiobookPlayer :=
  { audioManager_ :=
      { tasks := [{ introTask with paused := true, calls := [TaskCall.pauseToggle] },
                  { elements := [Element.voice "fast_forwarding".toList,
                                 Element.voice "2x".toList],
                    hasCallback := false, pausable := true, paused := false, stopped := false,
                    position := 0, calls := [] }],
        pausableOf := fun _ => true },
    fastForwardingSpeed_ := 2, fastForwardedSeconds_ := 6, currentAudioTask_ := some 1,
    pausedAudioTask_ := some 0,
    audioTracks_ := [introTrack.setLastPlayedMillisecond 46200], audioTracksInfo_ := [],
    currentTrackIndex_ := 0, currentState_ := State.FAST_FORWARDING, timerJoinable := true,
    registry := "intro 46200".toList ++ [newline] }

/-- A rewind ramp at speed -2 that has run for three seconds. -/
def backwardRampIntro : AudiobookPlayer :=
  { forwardRampIntro with
    audioManager_ :=
      { tasks := [{ introTask with paused := true, calls := [TaskCall.pauseToggle] },
                  { elements := [Element.voice "rewinding".toList, Element.voice "2x".toList],
                    hasCallback := false, pausable := true, paused := false, stopped := false,
                    position := 0, calls := [] }],
        pausableOf := fun _ => true },
    fastForwardingSpeed_ := -2, fastForwardedSeconds_ := -6,
    currentState_ := State.REWINDING }

/-- The fast-forward ramp of `forwardRampIntro` after four more presses: speed 32, the
current task is the "32x" prompt. -/
def forwardRamp32 : AudiobookPlayer :=
  { forwardRampIntro with
    audioManager_ :=
      { tasks := [{ introTask with paused := true, calls := [TaskCall.pauseToggle] },
                  { elements := [Element.voice "32x".toList],
                    hasCallback := false, pausable := true, paused := false, stopped := false,
                    position := 0, calls := [] }],
        pausableOf := fun _ => true },
    fastForwardingSpeed_ := 32 }

/-- The rewind ramp of `backwardRampIntro` after four more presses: speed -32. -/
def backwardRamp32 : AudiobookPlayer :=
  { backwardRampIntro with
    audioManager_ := forwardRamp32.audioManager_,
    fastForwardingSpeed_ := -32 }

/-- A run of track-selection presses, `true` for the next button and `false` for the
previous button. -/
def selectionRun : List Bool → AudiobookPlayer → Option AudiobookPlayer
  | [], s => some s
  | b :: bs, s =>
    (if b then switchToNextAudiobook s else switchToPreviousAudiobook s).bind (selectionRun bs)

/-- A player in state `CHOOSING` with three tracks, the last one selected. -/
def choosingThree : AudiobookPlayer :=
  { audioManager_ := { tasks := [], pausableOf := fun _ => true },
    fastForwardingSpeed_ := 0, fastForwardedSeconds_ := 0, currentAudioTask_ := none,
    pausedAudioTask_ := none,
    audioTracks_ := [introTrack, { introTrack with trackName_ := "two".toList },
                     { introTrack with trackName_ := "three".toList }],
    audioTracksInfo_ := [], currentTrackIndex_ := 2, currentState_ := State.CHOOSING,
    timerJoinable := false, registry := [] }

/-- The run "fast-forward, three timer ticks, rewind" from `playingIntro`: the ramp is
started, runs for three seconds at speed 2 and is cancelled by the opposite press. -/
def cancelledRampRun : Option AudiobookPlayer :=
  ((fastForward playingIntro).map (fun s =>
    fastForwardingTimerTick (fastForwardingTimerTick (fastForwardingTimerTick s)))).bind rewind

/-- The run "pause" from `playingIntro`: the player is in `PAUSED`, `introTask` is the
paused task and the "pausing_audiobook" prompt is the current task. -/
def pausedIntroRun : Option AudiobookPlayer := pauseToggle playingIntro

/-- What a decimal numeral of `n` is: a non-empty run of digits with value `n` that
starts with `0` only when it is "0". -/
def IsNumeral (n : Nat) (ds : Str) : Prop :=
  ds ≠ [] ∧ (∀ c ∈ ds, isDigit c = true) ∧ digitsValue ds = n ∧
    (ds.head? = some '0' → ds = ['0'])

/-- A track whose offset the registry format can carry with `tokens[0]` and `tokens[1]`:
the name is not empty and has no white space, the offset is a non-negative `int`. -/
def Storable (t : AudioTrack) : Prop :=
  t.trackName_ ≠ [] ∧ (∀ c ∈ t.trackName_, isSpace c = false) ∧
    0 ≤ t.lastPlayedMillisecond_ ∧ t.lastPlayedMillisecond_ ≤ 2147483647

/-- The name and offset of a track. -/
def AudioTrack.pair (t : AudioTrack) : Str × Int := (t.trackName_, t.lastPlayedMillisecond_)

/-- A freshly constructed player before `loadTracksInfo`: no registry entries yet. -/
def freshPlayer : AudiobookPlayer :=
  { playingIntro with audioManager_ := { tasks := [], pausableOf := fun _ => true },
                      currentAudioTask_ := none, audioTracks_ := [], audioTracksInfo_ := [],
                      currentState_ := State.CHOOSING }

/-- A player whose only track carries a negative offset. -/
def negativeOffsetPlayer : AudiobookPlayer :=
  { playingIntro with audioTracks_ := [introTrack.setLastPlayedMillisecond (-5000)] }

/-- A player whose only track has a space in its name. -/
def spacedNamePlayer : AudiobookPlayer :=
  { playingIntro with audioTracks_ := [{ introTrack with trackName_ := "my book".toList }] }

/-- The track name the player derives for a file `f` of the audiobook directory: the
constructor is given `"../data/audiobooks/" + f`. -/
def displayName (f : Str) : Str := stripExtension (fileNameOf (audiobooksDir ++ f))

/-- An audio manager that has not created any task. -/
def idleManager : AudioManager := { tasks := [], pausableOf := fun _ => true }

/-- The audiobook directory holding the regular file `intro.mp3`. -/
def introDirectory : DataPath := DataPath.directory [{ filename := "intro.mp3".toList, regular := true }]

/-- The task a rewind or fast-forward request acts on when no ramp is running: the current
task in `PLAYING`, the paused task in `PAUSED`, none in the other states. -/
def rampTarget (s : AudiobookPlayer) : Option Nat :=
  if s.currentState_ = State.PLAYING then s.currentAudioTask_
  else if s.currentState_ = State.PAUSED then s.pausedAudioTask_
  else none

/-- The task a pause request acts on: the paused task in `PAUSED`, `REWINDING` and
`FAST_FORWARDING`, the current task otherwise. -/
def pauseTarget (s : AudiobookPlayer) : Option Nat :=
  if s.currentState_ = State.PAUSED ∨ s.currentState_ = State.REWINDING
      ∨ s.currentState_ = State.FAST_FORWARDING then s.pausedAudioTask_
  else s.currentAudioTask_

/-- A request is not applicable to a task pointer: the pointer is null, or the task it
points to reports itself not pausable. -/
def NotApplicable (s : AudiobookPlayer) (ptr : Option Nat) : Prop :=
  ptr = none ∨ ∃ p t, ptr = some p ∧ s.task? p = some t ∧ t.pausable = false

/-- A player in state `PLAYING` whose current task is not pausable. -/
def playingNotPausable : AudiobookPlayer :=
  { playingIntro with
    audioManager_ := { tasks := [{ introTask with pausable := false }],
                       pausableOf := fun _ => false } }

/-- A player in state `PAUSED` without a paused task. -/
def pausedWithoutTask : AudiobookPlayer :=
  { playingIntro with currentState_ := State.PAUSED, pausedAudioTask_ := none }

/-- The string `s` ends in `suffix`. -/
def endsIn (suffix s : Str) : Bool :=
  decide (suffix.length ≤ s.length) && s.drop (s.length - suffix.length) = suffix

/-- The allow-list test in the words of the specification: the name has the extension
`mp3` or `wav`, that is, it ends in ".mp3" or ".wav". -/
def hasListedExtension (name : Str) : Bool :=
  endsIn ".mp3".toList name || endsIn ".wav".toList name

/-- A directory with the regular files `xxmp3`, `.mp3`, `a.wav` and `notes.txt`. -/
def mixedDirectory : DataPath :=
  DataPath.directory [{ filename := "xxmp3".toList, regular := true },
                      { filename := ".mp3".toList, regular := true },
                      { filename := "a.wav".toList, regular := true },
                      { filename := "notes.txt".toList, regular := true }]

/-- The member functions the constructor binds to buttons. -/
inductive Action
  | switchToPreviousAudiobook
  | playChosenAudiobook
  | switchToNextAudiobook
  | increaseMasterVolume
  | decreaseMasterVolume
  | rewind
  | fastForward
  | pauseToggle
  | stopAudiobook
  deriving DecidableEq, Repr

/-- The table `availableActions_` the constructor fills: per state, the bound actions in
the order they are pushed. Within one state every action has a button of its own, in
the "debug" and in the "prod" input mode alike, so the buttons are left out. -/
def availableActions_ : State → List Action
  | State.CHOOSING =>
    [Action.switchToPreviousAudiobook, Action.playChosenAudiobook,
     Action.switchToNextAudiobook, Action.increaseMasterVolume, Action.decreaseMasterVolume]
  | State.PLAYING =>
    [Action.rewind, Action.fastForward, Action.pauseToggle, Action.increaseMasterVolume,
     Action.decreaseMasterVolume, Action.stopAudiobook]
  | State.REWINDING =>
    [Action.rewind, Action.fastForward, Action.pauseToggle, Action.increaseMasterVolume,
     Action.decreaseMasterVolume]
  | State.FAST_FORWARDING =>
    [Action.rewind, Action.fastForward, Action.pauseToggle, Action.increaseMasterVolume,
     Action.decreaseMasterVolume]
  | State.PAUSED =>
    [Action.rewind, Action.fastForward, Action.pauseToggle, Action.increaseMasterVolume,
     Action.decreaseMasterVolume, Action.stopAudiobook]

/-- Running a bound action. Modelled from the spec: `AudioManager::increaseMasterVolume`
and `decreaseMasterVolume` are not in the given sources; they adjust the master volume
(a float of the audio manager, not represented) and change nothing of the player. -/
def Action.run : Action → AudiobookPlayer → Option AudiobookPlayer
  | Action.switchToPreviousAudiobook, s => AudiobookPlayer.switchToPreviousAudiobook s
  | Action.playChosenAudiobook, s => AudiobookPlayer.playChosenAudiobook s
  | Action.switchToNextAudiobook, s => AudiobookPlayer.switchToNextAudiobook s
  | Action.increaseMasterVolume, s => some s
  | Action.decreaseMasterVolume, s => some s
  | Action.rewind, s => AudiobookPlayer.rewind s
  | Action.fastForward, s => AudiobookPlayer.fastForward s
  | Action.pauseToggle, s => AudiobookPlayer.pauseToggle s
  | Action.stopAudiobook, s => AudiobookPlayer.stopAudiobook s

/-- Modelled from the spec: the engine of a task runs outside the player; the position it
reports and whether it reports itself pausable can change at any time. -/
def engineReports (s : AudiobookPlayer) (p : Nat) (pausable : Bool) (position : Int) :
    AudiobookPlayer :=
  match s.audioManager_.tasks[p]? with
  | none => s
  | some t =>
    { s with audioManager_ :=
        { s.audioManager_ with
          tasks := s.audioManager_.tasks.set p { t with pausable := pausable, position := position } } }

/-- The player states that can be reached: the constructor's result for any audio
manager, directory and registry file, then any sequence of bound actions, each taken
from the table of the state it is pressed in and returning, of audiobook-finished
callbacks, of timer passes and of engine reports. -/
inductive Reachable : AudiobookPlayer → Prop
  | constructed (am : AudioManager) (path : DataPath) (file : Option Str) (s : AudiobookPlayer)
      (h : create am path file = some s) : Reachable s
  | pressed (a : Action) (s s' : AudiobookPlayer) (hr : Reachable s)
      (ha : a ∈ availableActions_ s.currentState_) (h : a.run s = some s') : Reachable s'
  | finished (s s' : AudiobookPlayer) (hr : Reachable s)
      (h : audiobookFinishCallback s = some s') : Reachable s'
  | ticked (s : AudiobookPlayer) (hr : Reachable s) : Reachable (fastForwardingTimerTick s)
  | reported (s : AudiobookPlayer) (p : Nat) (pausable : Bool) (position : Int)
      (hr : Reachable s) : Reachable (engineReports s p pausable position)

/-- The ramp invariant: the speed is 0 or `±2^k` with `1 ≤ k ≤ 7`; it is positive exactly
in `FAST_FORWARDING`, negative exactly in `REWINDING`, and 0 in `CHOOSING`, `PLAYING`
and `PAUSED`. -/
def RampInvariant (s : AudiobookPlayer) : Prop :=
  (s.fastForwardingSpeed_ = 0 ∨
    ∃ k : Nat, 1 ≤ k ∧ k ≤ 7 ∧
      (s.fastForwardingSpeed_ = 2 ^ k ∨ s.fastForwardingSpeed_ = -2 ^ k)) ∧
  (0 < s.fastForwardingSpeed_ ↔ s.currentState_ = State.FAST_FORWARDING) ∧
  (s.fastForwardingSpeed_ < 0 ↔ s.currentState_ = State.REWINDING) ∧
  (s.currentState_ = State.CHOOSING ∨ s.currentState_ = State.PLAYING
      ∨ s.currentState_ = State.PAUSED → s.fastForwardingSpeed_ = 0)

/-- Two players agree on ramp speed and state. -/
def SameRamp (x s : AudiobookPlayer) : Prop :=
  x.fastForwardingSpeed_ = s.fastForwardingSpeed_ ∧ x.currentState_ = s.currentState_

/-- The audiobook directory holding the regular file `intro.wav`. -/
def wavDirectory : DataPath :=
  DataPath.directory [{ filename := "intro.wav".toList, regular := true }]

/-- The player the constructor returns for `wavDirectory` and the registry line
"intro 45000". -/
def constructedIntro : AudiobookPlayer :=
  { playingIntro with audioManager_ := idleManager, currentAudioTask_ := none,
                      currentState_ := State.CHOOSING }

/-- The player `constructedIntro` after the play button: the audiobook task has just been
started. -/
def startedIntro : AudiobookPlayer :=
  { playingIntro with
    audioManager_ := { tasks := [{ introTask with position := 0 }],
                       pausableOf := fun _ => true } }

/-- The player `playingIntro` after one fast-forward press. -/
def rampTwoIntro : AudiobookPlayer := (fastForward playingIntro).getD playingIntro

/-- The player `playingIntro` after two fast-forward presses. -/
def rampFourIntro : AudiobookPlayer := (fastForward rampTwoIntro).getD playingIntro

/-- The player at the end of `cancelledRampRun`: a fast-forward ramp from `playingIntro`
that ran for three seconds at speed 2 and was cancelled by a rewind press. -/
def cancelledRampIntro : AudiobookPlayer := cancelledRampRun.getD playingIntro

/-! ## Lock discipline: the accesses of each action in program order -/

/-- The members `mutex_` is meant to guard. -/
inductive Member
  | currentState_
  | currentAudioTask_
  | pausedAudioTask_
  | currentTrackIndex_
  | fastForwardingSpeed_
  | fastForwardedSeconds_
  deriving DecidableEq, Repr

/-- What a thread does to `mutex_` and to the guarded members, one event per access. -/
inductive LockEvent
  | lock
  | unlock
  | read (m : Member)
  | write (m : Member)
  deriving DecidableEq, Repr

/-- Whether the thread holds the lock after the events, starting from `held`; `none` when
some member is read or written while the lock is not held. -/
def heldAfter : Bool → List LockEvent → Option Bool
  | held, [] => some held
  | _, LockEvent.lock :: es => heldAfter true es
  | _, LockEvent.unlock :: es => heldAfter false es
  | held, LockEvent.read _ :: es => if held then heldAfter held es else none
  | held, LockEvent.write _ :: es => if held then heldAfter held es else none

/-- Every read and write of a guarded member happens while the thread holds the lock. -/
def disciplined (es : List LockEvent) : Bool := (heldAfter false es).isSome

namespace AudiobookPlayer

/-- The guarded call `if (currentAudioTask_) currentAudioTask_->stop();`: the pointer is
read for the test and, when set, for the call. -/
def stopCurrentAccesses (s : AudiobookPlayer) : List LockEvent :=
  LockEvent.read Member.currentAudioTask_ ::
    (if s.currentAudioTask_.isSome then [LockEvent.read Member.currentAudioTask_] else [])

/-- `playChosenAudiobook` (lines 106-129): `lock_guard`, `changeStateTo`, the index into
`audioTracks_`, the guarded stop, `play`, and the release at the end of the scope. -/
def playChosenAudiobookAccesses (s : AudiobookPlayer) : List LockEvent :=
  [LockEvent.lock, LockEvent.write Member.currentState_,
   LockEvent.read Member.currentTrackIndex_]
  ++ stopCurrentAccesses s
  ++ [LockEvent.write Member.currentAudioTask_, LockEvent.unlock]

/-- `switchToNextAudiobook` (lines 311-323). -/
def switchToNextAudiobookAccesses (s : AudiobookPlayer) : List LockEvent :=
  [LockEvent.lock, LockEvent.read Member.currentTrackIndex_]
  ++ (if s.currentTrackIndex_ = sizeMinusOne s.audioTracks_.length then
        [LockEvent.write Member.currentTrackIndex_]
      else [LockEvent.read Member.currentTrackIndex_, LockEvent.write Member.currentTrackIndex_])
  ++ stopCurrentAccesses s
  ++ [LockEvent.read Member.currentTrackIndex_, LockEvent.write Member.currentAudioTask_,
      LockEvent.unlock]

/-- `switchToPreviousAudiobook` (lines 325-337). -/
def switchToPreviousAudiobookAccesses (s : AudiobookPlayer) : List LockEvent :=
  [LockEvent.lock, LockEvent.read Member.currentTrackIndex_]
  ++ (if s.currentTrackIndex_ = 0 then [LockEvent.write Member.currentTrackIndex_]
      else [LockEvent.read Member.currentTrackIndex_, LockEvent.write Member.currentTrackIndex_])
  ++ stopCurrentAccesses s
  ++ [LockEvent.read Member.currentTrackIndex_, LockEvent.write Member.currentAudioTask_,
      LockEvent.unlock]

/-- `stopAudiobook` (lines 464-476): `lock_guard`, the test of `currentAudioTask_`,
`updateCurrentTrackInfo(currentAudioTask_)` (which indexes `audioTracks_`) and `stop()`,
`play`, the assignment to `currentState_`, and the release. -/
def stopAudiobookAccesses (s : AudiobookPlayer) : List LockEvent :=
  [LockEvent.lock, LockEvent.read Member.currentAudioTask_]
  ++ (if s.currentAudioTask_.isSome then
        [LockEvent.read Member.currentAudioTask_, LockEvent.read Member.currentTrackIndex_,
         LockEvent.read Member.currentAudioTask_]
      else [])
  ++ [LockEvent.write Member.currentAudioTask_, LockEvent.write Member.currentState_,
      LockEvent.unlock]

/-- The choice of `checkedAudioTask` at the start of a ramp (lines 351-352, 411-412). -/
def checkedTaskAccesses (s : AudiobookPlayer) : List LockEvent :=
  if s.currentState_ = State.PLAYING then
    [LockEvent.read Member.currentState_, LockEvent.read Member.currentAudioTask_]
  else if s.currentState_ = State.PAUSED then
    [LockEvent.read Member.currentState_, LockEvent.read Member.currentState_,
     LockEvent.read Member.pausedAudioTask_]
  else [LockEvent.read Member.currentState_, LockEvent.read Member.currentState_]

/-- The rest of the branch `fastForwardingSpeed_ == 0` once the checked task `t` is known
to be pausable (lines 356-368, 416-428): the toggle with `updateCurrentTrackInfo`, the
new speed and state, the release around the join, and the new timer thread. -/
def startRampAccesses (t : AudioTask) : List LockEvent :=
  (if t.paused = false then
     [LockEvent.read Member.currentAudioTask_, LockEvent.write Member.pausedAudioTask_,
      LockEvent.read Member.currentTrackIndex_]
   else [])
  ++ [LockEvent.write Member.fastForwardingSpeed_, LockEvent.write Member.currentState_,
      LockEvent.unlock, LockEvent.lock]

/-- The branch that cancels a ramp (lines 372-381, 432-441): the speed is set to 0, the
lock is released around the join, then the paused task becomes current, is sought by
the elapsed seconds (through `sought`: `currentAudioTask_` in `rewind`,
`pausedAudioTask_` in `fastForward`), toggled and recorded, and the state is changed. -/
def cancelRampAccesses (sought : Member) : List LockEvent :=
  [LockEvent.write Member.fastForwardingSpeed_, LockEvent.unlock, LockEvent.lock,
   LockEvent.read Member.pausedAudioTask_, LockEvent.write Member.currentAudioTask_,
   LockEvent.read sought, LockEvent.read Member.fastForwardedSeconds_,
   LockEvent.read Member.currentAudioTask_,
   LockEvent.read Member.currentAudioTask_, LockEvent.read Member.currentTrackIndex_,
   LockEvent.write Member.currentState_]

/-- The voice prompts at the end of `rewind` and `fastForward` for the speed `v` now
stored and the first prompt speed `two` (`-2` resp. `2`): the comparisons read the
speed; a prompt assigns `currentAudioTask_`, after the guarded stop and a read of the
speed for the key when the speed is not `two`. -/
def announceAccesses (s : AudiobookPlayer) (v two : Int) : List LockEvent :=
  LockEvent.read Member.fastForwardingSpeed_ ::
    (if v = two then [LockEvent.write Member.currentAudioTask_]
     else LockEvent.read Member.fastForwardingSpeed_ ::
       (if v ≠ 0 then
          stopCurrentAccesses s
          ++ [LockEvent.read Member.fastForwardingSpeed_, LockEvent.write Member.currentAudioTask_]
        else []))

/-- The clamp (lines 387, 447): the comparison reads the speed, and the speed is written
when it exceeds the bound. -/
def clampAccesses (exceeds : Bool) : List LockEvent :=
  LockEvent.read Member.fastForwardingSpeed_ ::
    (if exceeds then [LockEvent.write Member.fastForwardingSpeed_] else [])

/-- The end of `rewind` and `fastForward` (lines 401, 461): the log line reads the speed,
then the scope ends and the lock is released. -/
def closingAccesses : List LockEvent :=
  [LockEvent.read Member.fastForwardingSpeed_, LockEvent.unlock]

/-- `rewind` (lines 344-402): `unique_lock`, the branch chain on the speed, the clamp, the
prompts, and the release at the end of the scope or at a `return`. -/
def rewindAccesses (s : AudiobookPlayer) : List LockEvent :=
  [LockEvent.lock, LockEvent.read Member.fastForwardingSpeed_]
  ++ (if s.fastForwardingSpeed_ = 0 then
        checkedTaskAccesses s
        ++ (match (rampTarget s).bind s.task? with
            | none => [LockEvent.unlock]
            | some t =>
              if t.pausable = false then [LockEvent.unlock]
              else startRampAccesses t ++ clampAccesses false ++ announceAccesses s (-2) (-2)
                   ++ closingAccesses)
      else
        LockEvent.read Member.fastForwardingSpeed_ ::
        (if s.fastForwardingSpeed_ = 2 then
           cancelRampAccesses Member.currentAudioTask_ ++ clampAccesses false ++ announceAccesses s 0 (-2)
           ++ closingAccesses
         else
           LockEvent.read Member.fastForwardingSpeed_ ::
           (if s.fastForwardingSpeed_ < 0 then
              [LockEvent.read Member.fastForwardingSpeed_,
               LockEvent.write Member.fastForwardingSpeed_]
              ++ clampAccesses (decide (s.fastForwardingSpeed_ * 2 < -128))
              ++ announceAccesses s (rewindClamp
                    { s with fastForwardingSpeed_ := s.fastForwardingSpeed_ * 2 }).fastForwardingSpeed_
                  (-2)
              ++ closingAccesses
            else
              [LockEvent.read Member.fastForwardingSpeed_,
               LockEvent.read Member.fastForwardingSpeed_,
               LockEvent.write Member.fastForwardingSpeed_]
              ++ clampAccesses (decide (mulHalf s.fastForwardingSpeed_ < -128))
              ++ announceAccesses s (rewindClamp
                    { s with fastForwardingSpeed_ := mulHalf s.fastForwardingSpeed_ }).fastForwardingSpeed_
                  (-2)
              ++ closingAccesses)))

/-- `fastForward` (lines 404-462), built like `rewind`. -/
def fastForwardAccesses (s : AudiobookPlayer) : List LockEvent :=
  [LockEvent.lock, LockEvent.read Member.fastForwardingSpeed_]
  ++ (if s.fastForwardingSpeed_ = 0 then
        checkedTaskAccesses s
        ++ (match (rampTarget s).bind s.task? with
            | none => [LockEvent.unlock]
            | some t =>
              if t.pausable = false then [LockEvent.unlock]
              else startRampAccesses t ++ clampAccesses false ++ announceAccesses s 2 2
                   ++ closingAccesses)
      else
        LockEvent.read Member.fastForwardingSpeed_ ::
        (if s.fastForwardingSpeed_ = -2 then
           cancelRampAccesses Member.pausedAudioTask_ ++ clampAccesses false
           ++ announceAccesses s 0 2 ++ closingAccesses
         else
           LockEvent.read Member.fastForwardingSpeed_ ::
           (if s.fastForwardingSpeed_ < 0 then
              [LockEvent.read Member.fastForwardingSpeed_,
               LockEvent.write Member.fastForwardingSpeed_]
              ++ clampAccesses (decide (mulHalf s.fastForwardingSpeed_ > 128))
              ++ announceAccesses s (fastForwardClamp
                    { s with fastForwardingSpeed_ := mulHalf s.fastForwardingSpeed_ }).fastForwardingSpeed_
                  2
              ++ closingAccesses
            else
              [LockEvent.read Member.fastForwardingSpeed_,
               LockEvent.read Member.fastForwardingSpeed_,
               LockEvent.write Member.fastForwardingSpeed_]
              ++ clampAccesses (decide (s.fastForwardingSpeed_ * 2 > 128))
              ++ announceAccesses s (fastForwardClamp
                    { s with fastForwardingSpeed_ := s.fastForwardingSpeed_ * 2 }).fastForwardingSpeed_
                  2
              ++ closingAccesses)))

/-- The test `currentState_ == PAUSED || currentState_ == FAST_FORWARDING ||
currentState_ == REWINDING` of `pauseToggle` (line 165), one read per comparison made. -/
def pauseTestAccesses (s : AudiobookPlayer) : List LockEvent :=
  if s.currentState_ = State.PAUSED then [LockEvent.read Member.currentState_]
  else if s.currentState_ = State.FAST_FORWARDING then
    [LockEvent.read Member.currentState_, LockEvent.read Member.currentState_]
  else [LockEvent.read Member.currentState_, LockEvent.read Member.currentState_,
        LockEvent.read Member.currentState_]

/-- `pauseToggle` (lines 163-210). The function takes no lock; the events are the member
accesses of the branch taken, up to the `return` when the task is absent or not
pausable. -/
def pauseToggleAccesses (s : AudiobookPlayer) : List LockEvent :=
  pauseTestAccesses s
  ++ (if s.currentState_ = State.PAUSED ∨ s.currentState_ = State.FAST_FORWARDING
          ∨ s.currentState_ = State.REWINDING then
        LockEvent.read Member.pausedAudioTask_ ::
        (match s.pausedAudioTask_ with
         | none => []
         | some p =>
           LockEvent.read Member.pausedAudioTask_ ::
           (match s.task? p with
            | none => []
            | some t =>
              if t.pausable = false then []
              else
                [LockEvent.read Member.currentTrackIndex_,
                 LockEvent.write Member.fastForwardingSpeed_,
                 LockEvent.write Member.currentState_,
                 LockEvent.read Member.pausedAudioTask_,
                 LockEvent.read Member.fastForwardedSeconds_,
                 LockEvent.read Member.pausedAudioTask_,
                 LockEvent.read Member.currentTrackIndex_,
                 LockEvent.write Member.fastForwardedSeconds_,
                 LockEvent.write Member.currentAudioTask_,
                 LockEvent.read Member.currentAudioTask_,
                 LockEvent.read Member.pausedAudioTask_,
                 LockEvent.read Member.pausedAudioTask_,
                 LockEvent.read Member.pausedAudioTask_,
                 LockEvent.write Member.currentAudioTask_,
                 LockEvent.write Member.pausedAudioTask_]))
      else
        LockEvent.read Member.currentAudioTask_ ::
        (match s.currentAudioTask_ with
         | none => []
         | some c =>
           LockEvent.read Member.currentAudioTask_ ::
           (match s.task? c with
            | none => []
            | some t =>
              if t.pausable = false then []
              else
                [LockEvent.read Member.currentTrackIndex_,
                 LockEvent.read Member.currentTrackIndex_,
                 LockEvent.read Member.currentAudioTask_,
                 LockEvent.write Member.fastForwardingSpeed_,
                 LockEvent.write Member.currentState_,
                 LockEvent.read Member.currentAudioTask_,
                 LockEvent.read Member.fastForwardedSeconds_,
                 LockEvent.read Member.currentAudioTask_,
                 LockEvent.read Member.currentTrackIndex_,
                 LockEvent.write Member.fastForwardedSeconds_,
                 LockEvent.read Member.currentAudioTask_,
                 LockEvent.read Member.currentAudioTask_,
                 LockEvent.read Member.currentAudioTask_,
                 LockEvent.write Member.pausedAudioTask_,
                 LockEvent.write Member.currentAudioTask_])))

/-- One pass of the loop of `fastForwardingTimerFunction` (lines 141-160): the loop test
reads the speed, `fastForwardedSeconds_ += fastForwardingSpeed_` reads the speed and
reads and writes the counter, then, after the sleep, `unique_lock` is taken, the log
line reads the counter twice, and the lock is released at the end of the body. -/
def timerPassAccesses : List LockEvent :=
  [LockEvent.read Member.fastForwardingSpeed_,
   LockEvent.read Member.fastForwardingSpeed_,
   LockEvent.read Member.fastForwardedSeconds_,
   LockEvent.write Member.fastForwardedSeconds_,
   LockEvent.lock,
   LockEvent.read Member.fastForwardedSeconds_,
   LockEvent.read Member.fastForwardedSeconds_,
   LockEvent.unlock]

/-- `fastForwardingTimerFunction` (lines 131-161) for a run of `passes` loop passes: the
reset of the counter, the index into `audioTracks_`, the passes, and the last loop test,
which finds the speed 0. -/
def fastForwardingTimerFunctionAccesses (passes : Nat) : List LockEvent :=
  [LockEvent.write Member.fastForwardedSeconds_, LockEvent.read Member.currentTrackIndex_]
  ++ (List.replicate passes timerPassAccesses).flatten
  ++ [LockEvent.read Member.fastForwardingSpeed_]

end AudiobookPlayer

/-- The player at the end of `pausedIntroRun`. -/
def pausedIntro : AudiobookPlayer := pausedIntroRun.getD playingIntro

/-! # Theorems -/

/-! ## Helper lemmas: one press while a ramp is running -/

theorem fastForward_of_pos (s : AudiobookPlayer) (h : 0 < s.fastForwardingSpeed_)
    (hv : currentValid s) :
    ∃ s', fastForward s = some s' ∧
      s'.fastForwardingSpeed_ = min (2 * s.fastForwardingSpeed_) 128 ∧
      s'.currentState_ = s.currentState_ ∧ currentValid s' := by
  obtain ⟨⟨ts, po⟩, speed, ffs, cur, paused, tracks, infos, idx, st, tj, reg⟩ := s
  simp only [currentValid] at hv ⊢
  simp only at h
  have h0 : speed ≠ 0 := by omega
  have h2 : speed ≠ -2 := by omega
  have hn : ¬ speed < 0 := by omega
  by_cases hb : speed * 2 > 128
  · have hm : min (2 * speed) 128 = 128 := by omega
    cases cur with
    | none =>
      simp [fastForward, fastForwardBranch, fastForwardClamp, fastForwardAnnounce, callTaskIfSet,
        play, AudioManager.play, h0, h2, hn, h, hb, hm]
    | some p =>
      have hp : p < ts.length := hv p rfl
      simp [fastForward, fastForwardBranch, fastForwardClamp, fastForwardAnnounce, callTaskIfSet,
        callTask, play, AudioManager.play, h0, h2, hn, h, hb, hm, hp]
  · have hm : min (2 * speed) 128 = speed * 2 := by omega
    by_cases h1 : speed * 2 = 2
    · cases cur with
      | none =>
        simp [fastForward, fastForwardBranch, fastForwardClamp, fastForwardAnnounce, callTaskIfSet,
          play, AudioManager.play, h0, h2, hn, h, hb, hm, h1]
      | some p =>
        have hp : p < ts.length := hv p rfl
        simp [fastForward, fastForwardBranch, fastForwardClamp, fastForwardAnnounce, callTaskIfSet,
          callTask, play, AudioManager.play, h0, h2, hn, h, hb, hm, hp, h1]
    · cases cur with
      | none =>
        simp [fastForward, fastForwardBranch, fastForwardClamp, fastForwardAnnounce, callTaskIfSet,
          play, AudioManager.play, h0, h2, hn, h, hb, hm, h1]
      | some p =>
        have hp : p < ts.length := hv p rfl
        simp [fastForward, fastForwardBranch, fastForwardClamp, fastForwardAnnounce, callTaskIfSet,
          callTask, play, AudioManager.play, h0, h2, hn, h, hb, hm, hp, h1]

theorem rewind_of_neg (s : AudiobookPlayer) (h : s.fastForwardingSpeed_ < 0)
    (hv : currentValid s) :
    ∃ s', rewind s = some s' ∧
      s'.fastForwardingSpeed_ = max (2 * s.fastForwardingSpeed_) (-128) ∧
      s'.currentState_ = s.currentState_ ∧ currentValid s' := by
  obtain ⟨⟨ts, po⟩, speed, ffs, cur, paused, tracks, infos, idx, st, tj, reg⟩ := s
  simp only [currentValid] at hv ⊢
  simp only at h
  have h0 : speed ≠ 0 := by omega
  have h2 : speed ≠ 2 := by omega
  by_cases hb : speed * 2 < -128
  · have hm : max (2 * speed) (-128) = -128 := by omega
    cases cur with
    | none =>
      simp [rewind, rewindBranch, rewindClamp, rewindAnnounce, callTaskIfSet,
        play, AudioManager.play, h0, h2, h, hb, hm]
    | some p =>
      have hp : p < ts.length := hv p rfl
      simp [rewind, rewindBranch, rewindClamp, rewindAnnounce, callTaskIfSet,
        callTask, play, AudioManager.play, h0, h2, h, hb, hm, hp]
  · have hm : max (2 * speed) (-128) = speed * 2 := by omega
    by_cases h1 : speed * 2 = -2
    · cases cur with
      | none =>
        simp [rewind, rewindBranch, rewindClamp, rewindAnnounce, callTaskIfSet,
          play, AudioManager.play, h0, h2, h, hb, hm, h1]
      | some p =>
        have hp : p < ts.length := hv p rfl
        simp [rewind, rewindBranch, rewindClamp, rewindAnnounce, callTaskIfSet,
          callTask, play, AudioManager.play, h0, h2, h, hb, hm, hp, h1]
    · cases cur with
      | none =>
        simp [rewind, rewindBranch, rewindClamp, rewindAnnounce, callTaskIfSet,
          play, AudioManager.play, h0, h2, h, hb, hm, h1]
      | some p =>
        have hp : p < ts.length := hv p rfl
        simp [rewind, rewindBranch, rewindClamp, rewindAnnounce, callTaskIfSet,
          callTask, play, AudioManager.play, h0, h2, h, hb, hm, hp, h1]

theorem presses_fastForward_of_pos (n : Nat) : ∀ s : AudiobookPlayer,
    0 < s.fastForwardingSpeed_ → s.fastForwardingSpeed_ ≤ 128 → currentValid s →
    ∃ s', presses fastForward n s = some s' ∧
      s'.fastForwardingSpeed_ = min (2 ^ n * s.fastForwardingSpeed_) 128 ∧
      s'.currentState_ = s.currentState_ := by
  induction n with
  | zero =>
    intro s h0 h1 _
    refine ⟨s, rfl, ?_, rfl⟩
    simp only [pow_zero, one_mul]; omega
  | succ n ih =>
    intro s h0 h1 hv
    obtain ⟨s1, hs1, hsp, hst, hv1⟩ := fastForward_of_pos s h0 hv
    obtain ⟨s2, hs2, hsp2, hst2⟩ := ih s1 (by omega) (by omega) hv1
    refine ⟨s2, ?_, ?_, hst2.trans hst⟩
    · simp [presses, hs1, hs2]
    · rw [hsp2, hsp]
      have hpow : (1 : Int) ≤ 2 ^ n := one_le_pow₀ (by norm_num)
      rw [pow_succ]
      rcases le_total (2 * s.fastForwardingSpeed_) 128 with hle | hle
      · rw [min_eq_left hle]; ring_nf
      · rw [min_eq_right hle]
        have e1 : (128 : Int) ≤ 2 ^ n * 128 := by nlinarith
        have e2 : (128 : Int) ≤ 2 ^ n * 2 * s.fastForwardingSpeed_ := by nlinarith
        rw [min_eq_right e1, min_eq_right e2]

theorem presses_rewind_of_neg (n : Nat) : ∀ s : AudiobookPlayer,
    s.fastForwardingSpeed_ < 0 → -128 ≤ s.fastForwardingSpeed_ → currentValid s →
    ∃ s', presses rewind n s = some s' ∧
      s'.fastForwardingSpeed_ = max (2 ^ n * s.fastForwardingSpeed_) (-128) ∧
      s'.currentState_ = s.currentState_ := by
  induction n with
  | zero =>
    intro s h0 h1 _
    refine ⟨s, rfl, ?_, rfl⟩
    simp only [pow_zero, one_mul]; omega
  | succ n ih =>
    intro s h0 h1 hv
    obtain ⟨s1, hs1, hsp, hst, hv1⟩ := rewind_of_neg s h0 hv
    obtain ⟨s2, hs2, hsp2, hst2⟩ := ih s1 (by omega) (by omega) hv1
    refine ⟨s2, ?_, ?_, hst2.trans hst⟩
    · simp [presses, hs1, hs2]
    · rw [hsp2, hsp]
      have hpow : (1 : Int) ≤ 2 ^ n := one_le_pow₀ (by norm_num)
      rw [pow_succ]
      rcases le_total (-128) (2 * s.fastForwardingSpeed_) with hle | hle
      · rw [max_eq_left hle]; ring_nf
      · rw [max_eq_right hle]
        have e1 : (2 : Int) ^ n * (-128) ≤ -128 := by nlinarith
        have e2 : (2 : Int) ^ n * 2 * s.fastForwardingSpeed_ ≤ -128 := by nlinarith
        rw [max_eq_right e1, max_eq_right e2]

/-- The first fast-forward press from `PLAYING`: the ramp starts at speed 2. -/
theorem fastForward_start (s : AudiobookPlayer) (c : Nat) (T : AudioTask)
    (hspeed : s.fastForwardingSpeed_ = 0) (hstate : s.currentState_ = State.PLAYING)
    (hcur : s.currentAudioTask_ = some c) (hT : s.task? c = some T)
    (hpausable : T.pausable = true) (hrunning : T.paused = false)
    (hidx : s.currentTrackIndex_ < s.audioTracks_.length) :
    ∃ s', fastForward s = some s' ∧ s'.fastForwardingSpeed_ = 2 ∧
      s'.currentState_ = State.FAST_FORWARDING ∧ currentValid s' := by
  obtain ⟨⟨ts, po⟩, speed, ffs, cur, paused, tracks, infos, idx, st, tj, reg⟩ := s
  simp only [task?] at hT
  simp only at hspeed hstate hcur hidx
  subst hspeed hstate hcur
  have hc : c < ts.length := by
    rcases Nat.lt_or_ge c ts.length with h | h
    · exact h
    · rw [List.getElem?_eq_none h] at hT; cases hT
  simp [fastForward, fastForwardBranch, fastForwardClamp, fastForwardAnnounce, callTask,
    updateCurrentTrackInfo, saveTracksInfo, startTimer, joinTimer, changeStateTo, task?,
    play, AudioManager.play, hT, hpausable, hrunning, hidx, hc, currentValid]

/-- The first rewind press from `PLAYING`: the ramp starts at speed -2. -/
theorem rewind_start (s : AudiobookPlayer) (c : Nat) (T : AudioTask)
    (hspeed : s.fastForwardingSpeed_ = 0) (hstate : s.currentState_ = State.PLAYING)
    (hcur : s.currentAudioTask_ = some c) (hT : s.task? c = some T)
    (hpausable : T.pausable = true) (hrunning : T.paused = false)
    (hidx : s.currentTrackIndex_ < s.audioTracks_.length) :
    ∃ s', rewind s = some s' ∧ s'.fastForwardingSpeed_ = -2 ∧
      s'.currentState_ = State.REWINDING ∧ currentValid s' := by
  obtain ⟨⟨ts, po⟩, speed, ffs, cur, paused, tracks, infos, idx, st, tj, reg⟩ := s
  simp only [task?] at hT
  simp only at hspeed hstate hcur hidx
  subst hspeed hstate hcur
  have hc : c < ts.length := by
    rcases Nat.lt_or_ge c ts.length with h | h
    · exact h
    · rw [List.getElem?_eq_none h] at hT; cases hT
  simp [rewind, rewindBranch, rewindClamp, rewindAnnounce, callTask,
    updateCurrentTrackInfo, saveTracksInfo, startTimer, joinTimer, changeStateTo, task?,
    play, AudioManager.play, hT, hpausable, hrunning, hidx, hc, currentValid]

/-- C1: from ramp speed 0 in state `PLAYING` with a pausable current task that is not
paused, `n ≥ 1` consecutive `fastForward()` presses all return and leave
`fastForwardingSpeed_ = min (2^n) 128`, and `n` consecutive `rewind()` presses leave
`-min (2^n) 128`; after every such run the magnitude is at most 128. -/
theorem ramp_speed_after_presses (s : AudiobookPlayer) (c : Nat) (T : AudioTask) (n : Nat)
    (hn : 1 ≤ n)
    (hspeed : s.fastForwardingSpeed_ = 0) (hstate : s.currentState_ = State.PLAYING)
    (hcur : s.currentAudioTask_ = some c) (hT : s.task? c = some T)
    (hpausable : T.pausable = true) (hrunning : T.paused = false)
    (hidx : s.currentTrackIndex_ < s.audioTracks_.length) :
    (∃ s', presses fastForward n s = some s' ∧
        s'.fastForwardingSpeed_ = min (2 ^ n) 128 ∧ s'.fastForwardingSpeed_.natAbs ≤ 128) ∧
    (∃ s', presses rewind n s = some s' ∧
        s'.fastForwardingSpeed_ = -min (2 ^ n) 128 ∧ s'.fastForwardingSpeed_.natAbs ≤ 128) := by
  obtain ⟨m, rfl⟩ : ∃ m, n = m + 1 := ⟨n - 1, by omega⟩
  constructor
  · obtain ⟨s1, h1, hsp1, _, hv1⟩ :=
      fastForward_start s c T hspeed hstate hcur hT hpausable hrunning hidx
    obtain ⟨s2, h2, hsp2, _⟩ := presses_fastForward_of_pos m s1 (by omega) (by omega) hv1
    refine ⟨s2, by simp [presses, h1, h2], ?_, ?_⟩
    · rw [hsp2, hsp1, pow_succ]
    · have hpos : (0 : Int) < 2 ^ m * s1.fastForwardingSpeed_ := by rw [hsp1]; positivity
      rw [hsp2]; omega
  · obtain ⟨s1, h1, hsp1, _, hv1⟩ :=
      rewind_start s c T hspeed hstate hcur hT hpausable hrunning hidx
    obtain ⟨s2, h2, hsp2, _⟩ := presses_rewind_of_neg m s1 (by omega) (by omega) hv1
    refine ⟨s2, by simp [presses, h1, h2], ?_, ?_⟩
    · rw [hsp2, hsp1, pow_succ]
      have hpow : (1 : Int) ≤ 2 ^ m := one_le_pow₀ (by norm_num)
      rcases le_total ((2 : Int) ^ m * 2) 128 with hle | hle
      · rw [min_eq_left hle, max_eq_left (by omega)]; ring
      · rw [min_eq_right hle, max_eq_right (by omega)]
    · have hpos : (0 : Int) < 2 ^ m * 2 := by positivity
      have hneg : (2 : Int) ^ m * s1.fastForwardingSpeed_ < 0 := by rw [hsp1]; omega
      rw [hsp2]; omega

/-- C1 at `playingIntro` with nine presses in each direction. -/
theorem ramp_speed_after_presses_witness :
    (∃ s', presses fastForward 9 playingIntro = some s' ∧
        s'.fastForwardingSpeed_ = min (2 ^ 9) 128 ∧ s'.fastForwardingSpeed_.natAbs ≤ 128) ∧
    (∃ s', presses rewind 9 playingIntro = some s' ∧
        s'.fastForwardingSpeed_ = -min (2 ^ 9) 128 ∧ s'.fastForwardingSpeed_.natAbs ≤ 128) :=
  ramp_speed_after_presses playingIntro 0 introTask 9 (by decide) rfl rfl rfl rfl rfl rfl
    (by decide)

/-- C2: `rewind()` pressed at speed 2 (player `s`) and `fastForward()` pressed at speed -2
(player `r`), each holding a paused task and a valid track index, return with ramp speed
0, state `PLAYING` and the formerly paused task as the current task; the speed is 0
right after the branch chain, after the clamp and at the end, so it takes no other value. -/
theorem opposite_press_at_two_cancels (s r : AudiobookPlayer) (p q : Nat) (P Q : AudioTask)
    (hs : s.fastForwardingSpeed_ = 2) (hp : s.pausedAudioTask_ = some p)
    (hP : s.task? p = some P) (hsi : s.currentTrackIndex_ < s.audioTracks_.length)
    (hr : r.fastForwardingSpeed_ = -2) (hq : r.pausedAudioTask_ = some q)
    (hQ : r.task? q = some Q) (hri : r.currentTrackIndex_ < r.audioTracks_.length) :
    (∃ s1 s', rewindBranch s = some (false, s1) ∧ s1.fastForwardingSpeed_ = 0 ∧
        (rewindClamp s1).fastForwardingSpeed_ = 0 ∧ rewind s = some s' ∧
        s'.fastForwardingSpeed_ = 0 ∧ s'.currentState_ = State.PLAYING ∧
        s'.currentAudioTask_ = some p) ∧
    (∃ r1 r', fastForwardBranch r = some (false, r1) ∧ r1.fastForwardingSpeed_ = 0 ∧
        (fastForwardClamp r1).fastForwardingSpeed_ = 0 ∧ fastForward r = some r' ∧
        r'.fastForwardingSpeed_ = 0 ∧ r'.currentState_ = State.PLAYING ∧
        r'.currentAudioTask_ = some q) := by
  constructor
  · obtain ⟨⟨ts, po⟩, speed, ffs, cur, paused, tracks, infos, idx, st, tj, reg⟩ := s
    simp only [task?] at hP
    simp only at hs hp hsi
    subst hs hp
    have hc : p < ts.length := by
      rcases Nat.lt_or_ge p ts.length with h | h
      · exact h
      · rw [List.getElem?_eq_none h] at hP; cases hP
    simp [rewind, rewindBranch, rewindClamp, rewindAnnounce, callTask,
      updateCurrentTrackInfo, saveTracksInfo, joinTimer, changeStateTo,
      hP, hsi, hc]
  · obtain ⟨⟨ts, po⟩, speed, ffs, cur, paused, tracks, infos, idx, st, tj, reg⟩ := r
    simp only [task?] at hQ
    simp only at hr hq hri
    subst hr hq
    have hc : q < ts.length := by
      rcases Nat.lt_or_ge q ts.length with h | h
      · exact h
      · rw [List.getElem?_eq_none h] at hQ; cases hQ
    simp [fastForward, fastForwardBranch, fastForwardClamp, fastForwardAnnounce, callTask,
      updateCurrentTrackInfo, saveTracksInfo, joinTimer, changeStateTo,
      hQ, hri, hc]

/-- C2 at `forwardRampIntro` (speed 2) and `backwardRampIntro` (speed -2). -/
theorem opposite_press_at_two_cancels_witness :
    (∃ s1 s', rewindBranch forwardRampIntro = some (false, s1) ∧ s1.fastForwardingSpeed_ = 0 ∧
        (rewindClamp s1).fastForwardingSpeed_ = 0 ∧ rewind forwardRampIntro = some s' ∧
        s'.fastForwardingSpeed_ = 0 ∧ s'.currentState_ = State.PLAYING ∧
        s'.currentAudioTask_ = some 0) ∧
    (∃ r1 r', fastForwardBranch backwardRampIntro = some (false, r1) ∧
        r1.fastForwardingSpeed_ = 0 ∧
        (fastForwardClamp r1).fastForwardingSpeed_ = 0 ∧ fastForward backwardRampIntro = some r' ∧
        r'.fastForwardingSpeed_ = 0 ∧ r'.currentState_ = State.PLAYING ∧
        r'.currentAudioTask_ = some 0) :=
  opposite_press_at_two_cancels forwardRampIntro backwardRampIntro 0 0 _ _
    rfl rfl rfl (by decide) rfl rfl rfl (by decide)

/-- A rewind press during a fast-forward ramp above speed 2 stores the halved speed and
keeps the state. -/
theorem rewind_of_pos (s : AudiobookPlayer) (w : Int) (h : 0 < s.fastForwardingSpeed_)
    (h2 : s.fastForwardingSpeed_ ≠ 2) (hw : mulHalf s.fastForwardingSpeed_ = w) (hw0 : 0 ≤ w)
    (hv : currentValid s) :
    ∃ s', rewind s = some s' ∧ s'.fastForwardingSpeed_ = w ∧
      s'.currentState_ = s.currentState_ := by
  obtain ⟨⟨ts, po⟩, speed, ffs, cur, paused, tracks, infos, idx, st, tj, reg⟩ := s
  simp only [currentValid] at hv
  simp only at h h2 hw
  have h0 : speed ≠ 0 := by omega
  have hn : ¬ speed < 0 := by omega
  have hc : ¬ w < -128 := by omega
  have hm : w ≠ -2 := by omega
  by_cases hz : w = 0
  · simp [rewind, rewindBranch, rewindClamp, rewindAnnounce, h0, h2, hn, h, hw, hz]
  · cases cur with
    | none =>
      simp [rewind, rewindBranch, rewindClamp, rewindAnnounce, callTaskIfSet,
        play, AudioManager.play, h0, h2, hn, h, hw, hc, hm, hz]
    | some p =>
      have hp : p < ts.length := hv p rfl
      simp [rewind, rewindBranch, rewindClamp, rewindAnnounce, callTaskIfSet,
        callTask, play, AudioManager.play, h0, h2, hn, h, hw, hc, hm, hz, hp]

/-- A fast-forward press during a rewind ramp below speed -2 stores the halved speed and
keeps the state. -/
theorem fastForward_of_neg (s : AudiobookPlayer) (w : Int) (h : s.fastForwardingSpeed_ < 0)
    (h2 : s.fastForwardingSpeed_ ≠ -2) (hw : mulHalf s.fastForwardingSpeed_ = w) (hw0 : w ≤ 0)
    (hv : currentValid s) :
    ∃ s', fastForward s = some s' ∧ s'.fastForwardingSpeed_ = w ∧
      s'.currentState_ = s.currentState_ := by
  obtain ⟨⟨ts, po⟩, speed, ffs, cur, paused, tracks, infos, idx, st, tj, reg⟩ := s
  simp only [currentValid] at hv
  simp only at h h2 hw
  have h0 : speed ≠ 0 := by omega
  have hc : ¬ w > 128 := by omega
  have hm : w ≠ 2 := by omega
  by_cases hz : w = 0
  · simp [fastForward, fastForwardBranch, fastForwardClamp, fastForwardAnnounce, h0, h2, h, hw, hz]
  · cases cur with
    | none =>
      simp [fastForward, fastForwardBranch, fastForwardClamp, fastForwardAnnounce, callTaskIfSet,
        play, AudioManager.play, h0, h2, h, hw, hc, hm, hz]
    | some p =>
      have hp : p < ts.length := hv p rfl
      simp [fastForward, fastForwardBranch, fastForwardClamp, fastForwardAnnounce, callTaskIfSet,
        callTask, play, AudioManager.play, h0, h2, h, hw, hc, hm, hz, hp]

/-- The halving `*= 0.5f` is exact on the ramp speeds 4, 8, ..., 128 and their negatives. -/
theorem mulHalf_pow (k : Nat) (hk : 2 ≤ k) (hk7 : k ≤ 7) :
    mulHalf (2 ^ k) = 2 ^ (k - 1) ∧ mulHalf (-2 ^ k) = -2 ^ (k - 1) := by
  interval_cases k <;> exact ⟨by decide, by decide⟩



/-- C3: for `k` in 2..7, `rewind()` pressed at speed `2^k` in `FAST_FORWARDING` (player
`s`) returns with speed `2^(k-1)` and state `FAST_FORWARDING`, and `fastForward()`
pressed at speed `-2^k` in `REWINDING` (player `r`) returns with speed `-2^(k-1)` and
state `REWINDING`: the float multiply by 0.5 converted back to `int` is exactly half. -/
theorem opposite_press_halves (s r : AudiobookPlayer) (k : Nat) (hk : 2 ≤ k) (hk7 : k ≤ 7)
    (hs : s.fastForwardingSpeed_ = 2 ^ k) (hst : s.currentState_ = State.FAST_FORWARDING)
    (hsv : currentValid s)
    (hr : r.fastForwardingSpeed_ = -2 ^ k) (hrt : r.currentState_ = State.REWINDING)
    (hrv : currentValid r) :
    (∃ s', rewind s = some s' ∧ s'.fastForwardingSpeed_ = 2 ^ (k - 1) ∧
        s'.currentState_ = State.FAST_FORWARDING) ∧
    (∃ r', fastForward r = some r' ∧ r'.fastForwardingSpeed_ = -2 ^ (k - 1) ∧
        r'.currentState_ = State.REWINDING) := by
  obtain ⟨hpos, hneg⟩ := mulHalf_pow k hk hk7
  have hlt : (2 : Int) ^ 1 < 2 ^ k := pow_lt_pow_right₀ (by norm_num) (by omega)
  have hp1 : (0 : Int) < 2 ^ (k - 1) := by positivity
  constructor
  · obtain ⟨s', h1, h2, h3⟩ := rewind_of_pos s (2 ^ (k - 1)) (by rw [hs]; positivity)
      (by rw [hs]; omega) (by rw [hs]; exact hpos) (by omega) hsv
    exact ⟨s', h1, h2, h3.trans hst⟩
  · obtain ⟨r', h1, h2, h3⟩ := fastForward_of_neg r (-2 ^ (k - 1)) (by rw [hr]; omega)
      (by rw [hr]; omega) (by rw [hr]; exact hneg) (by omega) hrv
    exact ⟨r', h1, h2, h3.trans hrt⟩

/-- C3 at `forwardRamp32` and `backwardRamp32` with `k = 5`. -/
theorem opposite_press_halves_witness :
    (∃ s', rewind forwardRamp32 = some s' ∧ s'.fastForwardingSpeed_ = 2 ^ (5 - 1) ∧
        s'.currentState_ = State.FAST_FORWARDING) ∧
    (∃ r', fastForward backwardRamp32 = some r' ∧ r'.fastForwardingSpeed_ = -2 ^ (5 - 1) ∧
        r'.currentState_ = State.REWINDING) :=
  opposite_press_halves forwardRamp32 backwardRamp32 5 (by decide) (by decide)
    rfl rfl (by intro p hp; cases hp; decide) rfl rfl (by intro p hp; cases hp; decide)

theorem sizeMinusOne_eq (n : Nat) (h0 : 0 < n) (h : n < 2 ^ 64) : sizeMinusOne n = n - 1 := by
  unfold sizeMinusOne
  have : n + 2 ^ 64 - 1 = (n - 1) + 2 ^ 64 := by omega
  rw [this, Nat.add_mod_right, Nat.mod_eq_of_lt (by omega)]

theorem switchToNextAudiobook_index (s : AudiobookPlayer)
    (hi : s.currentTrackIndex_ < s.audioTracks_.length) (hN : s.audioTracks_.length < 2 ^ 64)
    (hv : currentValid s) :
    ∃ s', switchToNextAudiobook s = some s' ∧
      s'.currentTrackIndex_ =
        (if s.currentTrackIndex_ = s.audioTracks_.length - 1 then 0
         else s.currentTrackIndex_ + 1) ∧
      s'.audioTracks_ = s.audioTracks_ ∧ currentValid s' := by
  obtain ⟨⟨ts, po⟩, speed, ffs, cur, paused, tracks, infos, idx, st, tj, reg⟩ := s
  simp only [currentValid] at hv ⊢
  simp only at hi hN
  have hsz := sizeMinusOne_eq tracks.length (by omega) hN
  by_cases hlast : idx = tracks.length - 1
  · have h0 : 0 < tracks.length := by omega
    cases cur with
    | none =>
      simp [switchToNextAudiobook, callTaskIfSet, getCurrentTrack, play, AudioManager.play,
        hsz, hlast, h0]
    | some p =>
      have hp : p < ts.length := hv p rfl
      simp [switchToNextAudiobook, callTaskIfSet, callTask, getCurrentTrack, play,
        AudioManager.play, hsz, hlast, h0, hp]
  · have h1 : idx + 1 < tracks.length := by omega
    cases cur with
    | none =>
      simp [switchToNextAudiobook, callTaskIfSet, getCurrentTrack, play, AudioManager.play,
        hsz, hlast, h1]
    | some p =>
      have hp : p < ts.length := hv p rfl
      simp [switchToNextAudiobook, callTaskIfSet, callTask, getCurrentTrack, play,
        AudioManager.play, hsz, hlast, h1, hp]

theorem switchToPreviousAudiobook_index (s : AudiobookPlayer)
    (hi : s.currentTrackIndex_ < s.audioTracks_.length) (hN : s.audioTracks_.length < 2 ^ 64)
    (hv : currentValid s) :
    ∃ s', switchToPreviousAudiobook s = some s' ∧
      s'.currentTrackIndex_ =
        (if s.currentTrackIndex_ = 0 then s.audioTracks_.length - 1
         else s.currentTrackIndex_ - 1) ∧
      s'.audioTracks_ = s.audioTracks_ ∧ currentValid s' := by
  obtain ⟨⟨ts, po⟩, speed, ffs, cur, paused, tracks, infos, idx, st, tj, reg⟩ := s
  simp only [currentValid] at hv ⊢
  simp only at hi hN
  have hsz := sizeMinusOne_eq tracks.length (by omega) hN
  by_cases hfirst : idx = 0
  · have h0 : tracks.length - 1 < tracks.length := by omega
    cases cur with
    | none =>
      simp [switchToPreviousAudiobook, callTaskIfSet, getCurrentTrack, play, AudioManager.play,
        hsz, hfirst, h0]
    | some p =>
      have hp : p < ts.length := hv p rfl
      simp [switchToPreviousAudiobook, callTaskIfSet, callTask, getCurrentTrack, play,
        AudioManager.play, hsz, hfirst, h0, hp]
  · have h1 : idx - 1 < tracks.length := by omega
    cases cur with
    | none =>
      simp [switchToPreviousAudiobook, callTaskIfSet, getCurrentTrack, play, AudioManager.play,
        hsz, hfirst, h1]
    | some p =>
      have hp : p < ts.length := hv p rfl
      simp [switchToPreviousAudiobook, callTaskIfSet, callTask, getCurrentTrack, play,
        AudioManager.play, hsz, hfirst, h1, hp]

theorem selectionRun_index (bs : List Bool) : ∀ s : AudiobookPlayer,
    s.currentTrackIndex_ < s.audioTracks_.length → s.audioTracks_.length < 2 ^ 64 →
    currentValid s →
    ∃ s', selectionRun bs s = some s' ∧ s'.audioTracks_ = s.audioTracks_ ∧
      s'.currentTrackIndex_ < s'.audioTracks_.length := by
  induction bs with
  | nil => intro s hi _ _; exact ⟨s, rfl, rfl, hi⟩
  | cons b bs ih =>
    intro s hi hN hv
    cases b with
    | true =>
      obtain ⟨s1, h1, hidx, htr, hv1⟩ := switchToNextAudiobook_index s hi hN hv
      have hi1 : s1.currentTrackIndex_ < s1.audioTracks_.length := by
        rw [hidx, htr]; split <;> omega
      obtain ⟨s2, h2, htr2, hi2⟩ := ih s1 hi1 (by rw [htr]; exact hN) hv1
      exact ⟨s2, by simp [selectionRun, h1, h2], htr2.trans htr, hi2⟩
    | false =>
      obtain ⟨s1, h1, hidx, htr, hv1⟩ := switchToPreviousAudiobook_index s hi hN hv
      have hi1 : s1.currentTrackIndex_ < s1.audioTracks_.length := by
        rw [hidx, htr]; split <;> omega
      obtain ⟨s2, h2, htr2, hi2⟩ := ih s1 hi1 (by rw [htr]; exact hN) hv1
      exact ⟨s2, by simp [selectionRun, h1, h2], htr2.trans htr, hi2⟩

/-- C5: with `N` tracks (`N` below the `size_t` range) and a current index `i < N`,
`switchToNextAudiobook()` returns with index 0 when `i = N - 1` and `i + 1` otherwise,
`switchToPreviousAudiobook()` returns with index `N - 1` when `i = 0` and `i - 1`
otherwise, and every run of next/previous presses returns with the same track list and
an index that is still below `N`. -/
theorem track_selection_wraps (s : AudiobookPlayer) (bs : List Bool)
    (hi : s.currentTrackIndex_ < s.audioTracks_.length) (hN : s.audioTracks_.length < 2 ^ 64)
    (hv : currentValid s) :
    (∃ s', switchToNextAudiobook s = some s' ∧
      s'.currentTrackIndex_ =
        (if s.currentTrackIndex_ = s.audioTracks_.length - 1 then 0
         else s.currentTrackIndex_ + 1)) ∧
    (∃ s', switchToPreviousAudiobook s = some s' ∧
      s'.currentTrackIndex_ =
        (if s.currentTrackIndex_ = 0 then s.audioTracks_.length - 1
         else s.currentTrackIndex_ - 1)) ∧
    (∃ s', selectionRun bs s = some s' ∧ s'.audioTracks_ = s.audioTracks_ ∧
      s'.currentTrackIndex_ < s'.audioTracks_.length) := by
  refine ⟨?_, ?_, selectionRun_index bs s hi hN hv⟩
  · obtain ⟨s', h1, h2, _⟩ := switchToNextAudiobook_index s hi hN hv
    exact ⟨s', h1, h2⟩
  · obtain ⟨s', h1, h2, _⟩ := switchToPreviousAudiobook_index s hi hN hv
    exact ⟨s', h1, h2⟩

/-- C5 at `choosingThree` (three tracks, the last one selected). -/
theorem track_selection_wraps_witness :
    (∃ s', switchToNextAudiobook choosingThree = some s' ∧
      s'.currentTrackIndex_ =
        (if choosingThree.currentTrackIndex_ = choosingThree.audioTracks_.length - 1 then 0
         else choosingThree.currentTrackIndex_ + 1)) ∧
    (∃ s', switchToPreviousAudiobook choosingThree = some s' ∧
      s'.currentTrackIndex_ =
        (if choosingThree.currentTrackIndex_ = 0 then choosingThree.audioTracks_.length - 1
         else choosingThree.currentTrackIndex_ - 1)) ∧
    (∃ s', selectionRun [true, true, false, false, false] choosingThree = some s' ∧
      s'.audioTracks_ = choosingThree.audioTracks_ ∧
      s'.currentTrackIndex_ < s'.audioTracks_.length) :=
  track_selection_wraps choosingThree [true, true, false, false, false] (by decide)
    (by decide) (by intro p hp; cases hp)

/-- What `pauseToggle()` does from `PLAYING` with a pausable current task `T`: the task is
sought by the elapsed-seconds counter and toggled, the position it then reports is
stored for the current track and written to the registry. -/
theorem pauseToggle_from_playing (s : AudiobookPlayer) (c : Nat) (T : AudioTask)
    (hstate : s.currentState_ = State.PLAYING)
    (hcur : s.currentAudioTask_ = some c) (hT : s.task? c = some T)
    (hpausable : T.pausable = true)
    (hidx : s.currentTrackIndex_ < s.audioTracks_.length) :
    ∃ s', pauseToggle s = some s' ∧ s'.currentState_ = State.PAUSED ∧
      s'.fastForwardingSpeed_ = 0 ∧ s'.pausedAudioTask_ = some c ∧
      s'.task? c = some (T.seek (rampedOffset s.fastForwardedSeconds_)).pauseToggle ∧
      s'.audioTracks_.map (fun t => t.lastPlayedMillisecond_) =
        (s.audioTracks_.map (fun t => t.lastPlayedMillisecond_)).set s.currentTrackIndex_
          (T.position + rampedOffset s.fastForwardedSeconds_) ∧
      s'.registry = registryText s'.audioTracks_ ∧
      s'.fastForwardedSeconds_ = 0 ∧
      s'.currentAudioTask_ = some s.audioManager_.tasks.length := by
  obtain ⟨⟨ts, po⟩, speed, ffs, cur, paused, tracks, infos, idx, st, tj, reg⟩ := s
  simp only [task?] at hT
  simp only at hstate hcur hidx
  subst hstate hcur
  have hc : c < ts.length := by
    rcases Nat.lt_or_ge c ts.length with h | h
    · exact h
    · rw [List.getElem?_eq_none h] at hT; cases hT
  simp [pauseToggle, callTask, callTaskIfSet, updateCurrentTrackInfo, saveTracksInfo,
    joinTimer, changeStateTo, task?, play, AudioManager.play, hT, hpausable, hidx, hc,
    AudioTrack.setLastPlayedMillisecond, AudioTask.seek, AudioTask.pauseToggle,
    List.getElem?_append_left, List.map_set]

/-- C6: the code at a state `PLAYING` reached by "fast-forward, three ticks, rewind" from
`playingIntro`: the current task is pausable, running and reports 52200 ms, the
elapsed-seconds counter still holds 6, and `pauseToggle()` seeks the task once more and
ends in `PAUSED` with 58200 ms stored and written to the registry, not the reported
52200 ms. -/
theorem pause_after_cancelled_ramp :
    cancelledRampRun.map (fun x =>
        (x.currentState_, x.fastForwardingSpeed_, x.fastForwardedSeconds_, x.currentAudioTask_))
      = some (State.PLAYING, 0, 6, some 0) ∧
    cancelledRampRun.map (fun x =>
        (x.task? 0).map (fun T => (T.pausable, T.paused, T.position)))
      = some (some (true, false, 52200)) ∧
    (cancelledRampRun.bind pauseToggle).map (fun s =>
        (s.currentState_, s.audioTracks_.map (fun t => t.lastPlayedMillisecond_)))
      = some (State.PAUSED, [58200]) ∧
    (cancelledRampRun.bind pauseToggle).map (fun s => s.registry)
      = some ("intro 58200".toList ++ [newline]) :=
  ⟨by decide, by decide, by decide, by decide⟩

/-- Inside the 32-bit range the `int` product `fastForwardedSeconds_ * 1000` is the
mathematical product. -/
theorem rampedOffset_of_range (c : Int) (hlo : -2147483648 ≤ c * 1000)
    (hhi : c * 1000 ≤ 2147483647) : rampedOffset c = c * 1000 := by
  unfold rampedOffset wrapInt
  rw [Int.emod_eq_of_lt (by omega) (by omega)]
  omega

/-- Outside the 32-bit range the `int` product wraps: 2147484 seconds give
`seek(-2147483296)`. -/
theorem rampedOffset_wraps : rampedOffset 2147484 = -2147483296 := by decide

/-- C7: in state `PAUSED`, `REWINDING` or `FAST_FORWARDING` with a pausable paused task
`P` that is paused, `pauseToggle()` returns with state `PLAYING` and ramp speed 0; `P`
has received `seek(fastForwardedSeconds_ * 1000)`, the argument being the `int` product
(equal to the mathematical product whenever that lies in the 32-bit range), and then one
`pauseToggle()` and nothing else, it is running again, it is the current task,
`pausedAudioTask_` is null and the elapsed-seconds counter is 0. -/
theorem pauseToggle_resumes (s : AudiobookPlayer) (p : Nat) (P : AudioTask)
    (hstate : s.currentState_ = State.PAUSED ∨ s.currentState_ = State.REWINDING
      ∨ s.currentState_ = State.FAST_FORWARDING)
    (hp : s.pausedAudioTask_ = some p) (hP : s.task? p = some P)
    (hpausable : P.pausable = true) (hpaused : P.paused = true)
    (hidx : s.currentTrackIndex_ < s.audioTracks_.length) :
    ∃ s' P', pauseToggle s = some s' ∧ s'.currentState_ = State.PLAYING ∧
      s'.fastForwardingSpeed_ = 0 ∧
      s'.task? p = some P' ∧
      P'.calls = P.calls ++
        [TaskCall.seek (rampedOffset s.fastForwardedSeconds_), TaskCall.pauseToggle] ∧
      P'.position = P.position + rampedOffset s.fastForwardedSeconds_ ∧
      (-2147483648 ≤ s.fastForwardedSeconds_ * 1000 →
        s.fastForwardedSeconds_ * 1000 ≤ 2147483647 →
        rampedOffset s.fastForwardedSeconds_ = s.fastForwardedSeconds_ * 1000) ∧
      P'.paused = false ∧
      s'.currentAudioTask_ = some p ∧ s'.pausedAudioTask_ = none ∧
      s'.fastForwardedSeconds_ = 0 := by
  obtain ⟨⟨ts, po⟩, speed, ffs, cur, paused, tracks, infos, idx, st, tj, reg⟩ := s
  simp only [task?] at hP
  simp only at hstate hp hidx
  subst hp
  have hc : p < ts.length := by
    rcases Nat.lt_or_ge p ts.length with h | h
    · exact h
    · rw [List.getElem?_eq_none h] at hP; cases hP
  have hst : st = State.PAUSED ∨ st = State.FAST_FORWARDING ∨ st = State.REWINDING := by
    rcases hstate with h | h | h <;> simp [h]
  simp [pauseToggle, callTask, updateCurrentTrackInfo, saveTracksInfo,
    joinTimer, changeStateTo, task?, play, AudioManager.play, hP, hpausable, hpaused, hidx, hc,
    hst, AudioTask.seek, AudioTask.pauseToggle, AudioTask.waitForEnd,
    List.getElem?_append_left, List.getElem?_set]
  exact rampedOffset_of_range ffs

/-- C7 at `forwardRampIntro`, whose counter holds 6: the paused audiobook task is sought
by 6000 ms and resumed. -/
theorem pauseToggle_resumes_witness :
    ∃ s' P', pauseToggle forwardRampIntro = some s' ∧ s'.currentState_ = State.PLAYING ∧
      s'.fastForwardingSpeed_ = 0 ∧
      s'.task? 0 = some P' ∧
      P'.calls = [TaskCall.pauseToggle] ++ [TaskCall.seek 6000, TaskCall.pauseToggle] ∧
      P'.position = 46200 + 6000 ∧
      (-2147483648 ≤ (6 : Int) * 1000 → (6 : Int) * 1000 ≤ 2147483647 →
        rampedOffset 6 = 6 * 1000) ∧
      P'.paused = false ∧
      s'.currentAudioTask_ = some 0 ∧ s'.pausedAudioTask_ = none ∧
      s'.fastForwardedSeconds_ = 0 :=
  pauseToggle_resumes forwardRampIntro 0
    { introTask with paused := true, calls := [TaskCall.pauseToggle] }
    (Or.inr (Or.inr rfl)) rfl rfl rfl rfl (by decide)

/-- What `stopAudiobook()` does when `currentAudioTask_` points to a task `T`: the
position `T` reports is stored for the current track and written to the registry, `T` is
stopped, and the state is `CHOOSING`. -/
theorem stopAudiobook_with_current (s : AudiobookPlayer) (c : Nat) (T : AudioTask)
    (hcur : s.currentAudioTask_ = some c) (hT : s.task? c = some T)
    (hidx : s.currentTrackIndex_ < s.audioTracks_.length) :
    ∃ s', stopAudiobook s = some s' ∧ s'.currentState_ = State.CHOOSING ∧
      s'.task? c = some T.stop ∧
      s'.audioTracks_.map (fun t => t.lastPlayedMillisecond_) =
        (s.audioTracks_.map (fun t => t.lastPlayedMillisecond_)).set s.currentTrackIndex_
          T.position ∧
      s'.registry = registryText s'.audioTracks_ ∧
      s'.pausedAudioTask_ = s.pausedAudioTask_ := by
  obtain ⟨⟨ts, po⟩, speed, ffs, cur, paused, tracks, infos, idx, st, tj, reg⟩ := s
  simp only [task?] at hT
  simp only at hcur hidx
  subst hcur
  have hc : c < ts.length := by
    rcases Nat.lt_or_ge c ts.length with h | h
    · exact h
    · rw [List.getElem?_eq_none h] at hT; cases hT
  simp [stopAudiobook, callTask, updateCurrentTrackInfo, saveTracksInfo,
    task?, play, AudioManager.play, hT, hidx, hc,
    AudioTrack.setLastPlayedMillisecond, List.getElem?_append_left, List.map_set]

/-- C8: the code at the state `PAUSED` reached by pausing `playingIntro`: the paused task
(task 0, the audiobook) reports 46200 ms and the current task (task 1) is the pause
prompt at 0 ms; `stopAudiobook()` ends in `CHOOSING` with the prompt's 0 ms stored and
written to the registry, the prompt stopped, and the audiobook task not stopped and
still held as the paused task. -/
theorem stop_from_paused_uses_prompt_task :
    pausedIntroRun.map (fun x =>
        (x.currentState_, x.currentAudioTask_, x.pausedAudioTask_,
         x.audioTracks_.map (fun t => t.lastPlayedMillisecond_)))
      = some (State.PAUSED, some 1, some 0, [46200]) ∧
    pausedIntroRun.map (fun x =>
        (x.task? 0).map (fun T => (T.hasCallback, T.paused, T.stopped, T.position)))
      = some (some (true, true, false, 46200)) ∧
    pausedIntroRun.map (fun x => (x.task? 1).map (fun T => (T.elements, T.position)))
      = some (some ([Element.voice "pausing_audiobook".toList], 0)) ∧
    (pausedIntroRun.bind stopAudiobook).map (fun s =>
        (s.currentState_, s.audioTracks_.map (fun t => t.lastPlayedMillisecond_),
         s.pausedAudioTask_))
      = some (State.CHOOSING, [0], some 0) ∧
    (pausedIntroRun.bind stopAudiobook).map (fun s => s.registry)
      = some ("intro 0".toList ++ [newline]) ∧
    (pausedIntroRun.bind stopAudiobook).map (fun s =>
        ((s.task? 0).map (fun T => T.stopped), (s.task? 1).map (fun T => T.stopped)))
      = some (some false, some true) :=
  ⟨by decide, by decide, by decide, by decide, by decide, by decide⟩

theorem speedKey_four : speedKey 4 = "4x".toList := by decide

/-- C10 as stated fails: from `playingIntro` (state `PLAYING`, ramp speed 0, pausable
current task) two consecutive `fastForward()` presses return with ramp speed 4, not 8,
and the only prompt the second press requests is keyed "4x", not "8x". -/
theorem two_presses_not_eight :
    (presses fastForward 2 playingIntro).map (fun s => s.fastForwardingSpeed_) = some 4 ∧
    (presses fastForward 2 playingIntro).map (fun s => s.fastForwardingSpeed_) ≠ some 8 ∧
    (presses fastForward 2 playingIntro).map (fun s =>
        (s.audioManager_.tasks.drop 2).map (fun t => t.elements))
      = some [[Element.voice "4x".toList]] ∧
    (presses fastForward 2 playingIntro).map (fun s =>
        (s.audioManager_.tasks.drop 2).map (fun t => t.elements))
      ≠ some [[Element.voice "8x".toList]] :=
  ⟨by decide, by decide, by decide, by decide⟩

/-- C10 (amended): from state `PLAYING` with ramp speed 0 and a pausable, running current
task, two consecutive `fastForward()` presses return; the first leaves speed 2 and
requests one prompt task, "fast_forwarding" then "2x"; the second leaves speed 4 and
requests one prompt task keyed "4x"; the elements of the earlier tasks are unchanged. -/
theorem two_presses_speed_four (s : AudiobookPlayer) (c : Nat) (T : AudioTask)
    (hspeed : s.fastForwardingSpeed_ = 0) (hstate : s.currentState_ = State.PLAYING)
    (hcur : s.currentAudioTask_ = some c) (hT : s.task? c = some T)
    (hpausable : T.pausable = true) (hrunning : T.paused = false)
    (hidx : s.currentTrackIndex_ < s.audioTracks_.length) :
    ∃ s1 s2, fastForward s = some s1 ∧ fastForward s1 = some s2 ∧
      presses fastForward 2 s = some s2 ∧
      s1.fastForwardingSpeed_ = 2 ∧ s2.fastForwardingSpeed_ = 4 ∧
      (s1.audioManager_.tasks.drop s.audioManager_.tasks.length).map (fun t => t.elements)
        = [[Element.voice "fast_forwarding".toList, Element.voice "2x".toList]] ∧
      (s2.audioManager_.tasks.drop s1.audioManager_.tasks.length).map (fun t => t.elements)
        = [[Element.voice "4x".toList]] ∧
      (s2.audioManager_.tasks.take s.audioManager_.tasks.length).map (fun t => t.elements)
        = s.audioManager_.tasks.map (fun t => t.elements) := by
  obtain ⟨⟨ts, po⟩, speed, ffs, cur, paused, tracks, infos, idx, st, tj, reg⟩ := s
  simp only [task?] at hT
  simp only at hspeed hstate hcur hidx
  subst hspeed hstate hcur
  have hc : c < ts.length := by
    rcases Nat.lt_or_ge c ts.length with h | h
    · exact h
    · rw [List.getElem?_eq_none h] at hT; cases hT
  have hT' : ts[c] = T := by
    rw [List.getElem?_eq_getElem hc] at hT; exact Option.some.inj hT
  simp [presses, fastForward, fastForwardBranch, fastForwardClamp, fastForwardAnnounce, callTask,
    callTaskIfSet, updateCurrentTrackInfo, saveTracksInfo, startTimer, joinTimer, changeStateTo,
    task?, play, AudioManager.play, hT, hpausable, hrunning, hidx, hc, speedKey_four,
    List.getElem?_append_right, List.getElem?_append_left, AudioTask.pauseToggle,
    AudioTask.stop, List.take_append_eq_append_take, List.map_set]
  have hset : (List.map (fun t => t.elements) ts).set c T.elements
      = List.map (fun t => t.elements) ts := by
    apply List.ext_getElem?
    intro i
    rw [List.getElem?_set]
    split
    · next h => subst h; simp [hc, hT']
    · rfl
  rw [hset]
  refine ⟨?_, rfl⟩
  rw [List.drop_append_eq_append_drop]
  simp

/-- C10 (amended) at `playingIntro`. -/
theorem two_presses_speed_four_witness :
    ∃ s1 s2, fastForward playingIntro = some s1 ∧ fastForward s1 = some s2 ∧
      presses fastForward 2 playingIntro = some s2 ∧
      s1.fastForwardingSpeed_ = 2 ∧ s2.fastForwardingSpeed_ = 4 ∧
      (s1.audioManager_.tasks.drop playingIntro.audioManager_.tasks.length).map
          (fun t => t.elements)
        = [[Element.voice "fast_forwarding".toList, Element.voice "2x".toList]] ∧
      (s2.audioManager_.tasks.drop s1.audioManager_.tasks.length).map (fun t => t.elements)
        = [[Element.voice "4x".toList]] ∧
      (s2.audioManager_.tasks.take playingIntro.audioManager_.tasks.length).map
          (fun t => t.elements)
        = playingIntro.audioManager_.tasks.map (fun t => t.elements) :=
  two_presses_speed_four playingIntro 0 introTask rfl rfl rfl rfl rfl rfl (by decide)

/-! ## Helper lemmas: numerals -/

theorem digitChar_toNat (d : Nat) (h : d < 10) : (digitChar d).toNat = 48 + d := by
  interval_cases d <;> rfl

theorem digitsValue_append (ds : Str) (c : Char) :
    digitsValue (ds ++ [c]) = 10 * digitsValue ds + (c.toNat - 48) := by
  simp [digitsValue, List.foldl_append]

theorem decimalAux_spec (fuel : Nat) : ∀ (n : Nat) (acc : Str), n < fuel →
    ∃ ds, decimalAux fuel n acc = ds ++ acc ∧ IsNumeral n ds := by
  induction fuel with
  | zero => intro n acc h; omega
  | succ fuel ih =>
    intro n acc h
    by_cases h10 : n < 10
    · refine ⟨[digitChar n], by simp [decimalAux, h10], by simp, ?_, ?_, ?_⟩
      · intro c hc
        simp only [List.mem_singleton] at hc
        subst hc
        simp [isDigit, digitChar_toNat n h10]; omega
      · simp [digitsValue, digitChar_toNat n h10]
      · intro hh
        simp only [List.head?_cons, Option.some.injEq] at hh
        rw [hh]
    · obtain ⟨ds, hds, hne, hdig, hval, hhead⟩ :=
        ih (n / 10) (digitChar (n % 10) :: acc) (by omega)
      have hmod : n % 10 < 10 := Nat.mod_lt _ (by norm_num)
      refine ⟨ds ++ [digitChar (n % 10)], by simp [decimalAux, h10, hds], by simp, ?_, ?_, ?_⟩
      · intro c hc
        rcases List.mem_append.mp hc with hc | hc
        · exact hdig c hc
        · simp only [List.mem_singleton] at hc
          subst hc
          simp [isDigit, digitChar_toNat _ hmod]; omega
      · rw [digitsValue_append, hval, digitChar_toNat _ hmod]; omega
      · intro hh
        exfalso
        have : ds.head? = some '0' := by
          cases ds with
          | nil => exact absurd rfl hne
          | cons a as => simpa using hh
        have h0 := hhead this
        rw [h0] at hval
        simp [digitsValue] at hval
        omega

theorem decimal_isNumeral (n : Nat) : IsNumeral n (decimal n) := by
  obtain ⟨ds, hds, h⟩ := decimalAux_spec (n + 1) n [] (by omega)
  simp only [List.append_nil] at hds
  rw [decimal, hds]; exact h


theorem isSpace_of_isDigit (c : Char) (h : isDigit c = true) : isSpace c = false := by
  simp only [isDigit, isSpace, Bool.and_eq_true, decide_eq_true_eq, Bool.or_eq_false_iff,
    decide_eq_false_iff_not, Bool.and_eq_false_imp] at h ⊢
  omega

theorem matchesDot_of_not_isSpace (c : Char) (h : isSpace c = false) : matchesDot c = true := by
  have hn : c ≠ newline := by
    intro e; rw [e] at h; exact absurd h (by decide)
  have hr : c ≠ carriageReturn := by
    intro e; rw [e] at h; exact absurd h (by decide)
  simp [matchesDot, hn, hr]

theorem ne_newline_of_not_isSpace (c : Char) (h : isSpace c = false) : c ≠ newline := by
  intro e; rw [e] at h; exact absurd h (by decide)

theorem matchesNumber_of_isNumeral (n : Nat) (ds : Str) (h : IsNumeral n ds) :
    matchesNumber ds = true := by
  obtain ⟨hne, hdig, _, hhead⟩ := h
  match ds, hne, hdig, hhead with
  | [c], _, hdig, _ => simpa [matchesNumber] using hdig c (by simp)
  | c :: c2 :: rest, _, hdig, hhead =>
    have hc : c ≠ '0' := by
      intro e
      have := hhead (by simp [e])
      simp at this
    simp only [matchesNumber, Bool.and_eq_true, bne_iff_ne, ne_eq, List.all_eq_true]
    exact ⟨⟨hdig c (by simp), hc⟩, fun x hx => hdig x (List.mem_cons_of_mem _ hx)⟩

theorem stoi_of_isNumeral (n : Nat) (ds : Str) (h : IsNumeral n ds) (hn : n ≤ 2147483647) :
    stoi ds = some (n : Int) := by
  obtain ⟨hne, hdig, hval, _⟩ := h
  match ds, hne, hdig, hval with
  | c :: rest, _, hdig, hval =>
    have hc := hdig c (by simp)
    have hsp : isSpace c = false := isSpace_of_isDigit c hc
    have hminus : c ≠ '-' := by
      intro e; rw [e] at hc; exact absurd hc (by decide)
    have hplus : c ≠ '+' := by
      intro e; rw [e] at hc; exact absurd hc (by decide)
    have htake : List.takeWhile isDigit (c :: rest) = c :: rest :=
      List.takeWhile_eq_self_iff.mpr hdig
    have hdrop : List.dropWhile isSpace (c :: rest) = c :: rest := by
      simp [List.dropWhile, hsp]
    unfold stoi
    simp only [hdrop, List.head?_cons, Option.some.injEq, hminus, hplus, or_self, if_false,
      htake, hval]
    simp
    omega


/-! ## Helper lemmas: lines, tokens and the pattern -/

theorem tokensAux_word (w : Str) : ∀ (rest cur : Str), (∀ c ∈ w, isSpace c = false) →
    tokensAux (w ++ rest) cur = tokensAux rest (w.reverse ++ cur) := by
  induction w with
  | nil => intro rest cur _; rfl
  | cons a w ih =>
    intro rest cur h
    have ha : isSpace a = false := h a (by simp)
    simp only [List.cons_append, tokensAux, ha, Bool.false_eq_true, if_false]
    exact (ih rest (a :: cur) (fun c hc => h c (List.mem_cons_of_mem _ hc))).trans (by simp)

theorem tokens_name_number (name ds : Str) (hname : name ≠ [])
    (hns : ∀ c ∈ name, isSpace c = false) (hds : ds ≠ []) (hdd : ∀ c ∈ ds, isSpace c = false) :
    tokens (name ++ [' '] ++ ds) = [name, ds] := by
  have hsp : isSpace ' ' = true := by decide
  have h1 : name.reverse ≠ [] := by simpa using hname
  have h2 : ds.reverse ≠ [] := by simpa using hds
  have e : tokensAux ds [] = [ds] := by
    have := tokensAux_word ds [] [] hdd
    simp only [List.append_nil] at this
    rw [this]
    simp [tokensAux, h2]
  unfold tokens
  rw [List.append_assoc, tokensAux_word name _ [] hns]
  simp [tokensAux, hsp, h1, e]

theorem getlineAux_line (w : Str) : ∀ (rest cur : Str), (∀ c ∈ w, c ≠ newline) →
    getlineAux (w ++ newline :: rest) cur = (cur.reverse ++ w) :: getlineAux rest [] := by
  induction w with
  | nil => intro rest cur _; simp [getlineAux]
  | cons a w ih =>
    intro rest cur h
    have ha : a ≠ newline := h a (by simp)
    simp only [List.cons_append, getlineAux, ha, if_false]
    exact (ih rest (a :: cur) (fun c hc => h c (List.mem_cons_of_mem _ hc))).trans (by simp)

theorem trackInfoPattern_name_number (name ds : Str) (n : Nat) (hname : name ≠ [])
    (hns : ∀ c ∈ name, isSpace c = false) (hnum : IsNumeral n ds) :
    trackInfoPattern_ (name ++ [' '] ++ ds) = true := by
  unfold trackInfoPattern_
  rw [List.any_eq_true]
  refine ⟨name.length, ?_, ?_⟩
  · simp only [List.mem_range, List.length_append, List.length_singleton]
    have : 0 < ds.length := List.length_pos.mpr hnum.1
    omega
  · have hpos : 0 < name.length := List.length_pos.mpr hname
    have htake : List.take name.length (name ++ [' '] ++ ds) = name := by
      rw [List.append_assoc, List.take_left]
    have hdrop : List.drop (name.length + 1) (name ++ [' '] ++ ds) = ds := by
      have : (name ++ [' ']).length = name.length + 1 := by simp
      rw [← this, List.drop_left]
    have hget : (name ++ [' '] ++ ds)[name.length]? = some ' ' := by
      rw [List.append_assoc, List.getElem?_append_right (Nat.le_refl _)]
      simp
    rw [htake, hdrop, hget]
    have hdot : name.all matchesDot = true := by
      rw [List.all_eq_true]
      exact fun c hc => matchesDot_of_not_isSpace c (hns c hc)
    have hsp : isSpace ' ' = true := by decide
    simp [hpos, hdot, hsp, matchesNumber_of_isNumeral n ds hnum]


theorem to_string_of_nonneg (x : Int) (h : 0 ≤ x) : to_string x = decimal x.natAbs := by
  simp [to_string, not_lt.mpr h]

theorem registryLine_loads (t : AudioTrack) (h : Storable t) :
    ∃ ln, registryLine t = ln ++ [newline] ∧ (∀ c ∈ ln, c ≠ newline) ∧
      trackInfoPattern_ ln = true ∧
      tokens ln = [t.trackName_, to_string t.lastPlayedMillisecond_] ∧
      stoi (to_string t.lastPlayedMillisecond_) = some t.lastPlayedMillisecond_ := by
  obtain ⟨hname, hns, h0, hmax⟩ := h
  have hnum := decimal_isNumeral t.lastPlayedMillisecond_.natAbs
  have hts := to_string_of_nonneg _ h0
  have hdsp : ∀ c ∈ decimal t.lastPlayedMillisecond_.natAbs, isSpace c = false :=
    fun c hc => isSpace_of_isDigit c (hnum.2.1 c hc)
  refine ⟨t.trackName_ ++ [' '] ++ to_string t.lastPlayedMillisecond_, rfl, ?_, ?_, ?_, ?_⟩
  · intro c hc
    rw [hts] at hc
    simp only [List.append_assoc, List.mem_append, List.mem_singleton] at hc
    rcases hc with hc | hc | hc
    · exact ne_newline_of_not_isSpace c (hns c hc)
    · rw [hc]; decide
    · exact ne_newline_of_not_isSpace c (hdsp c hc)
  · rw [hts]; exact trackInfoPattern_name_number _ _ _ hname hns hnum
  · rw [hts]; exact tokens_name_number _ _ hname hns hnum.1 hdsp
  · rw [hts, stoi_of_isNumeral _ _ hnum (by omega)]
    congr 1
    omega

theorem loadLines_registryText (tracks : List AudioTrack) : ∀ (infos : List AudioTrack),
    (∀ t ∈ tracks, Storable t) →
    loadLines (getlines (registryText tracks)) infos =
      some (infos ++ tracks.map (fun t => AudioTrack.info t.trackName_ t.lastPlayedMillisecond_)) := by
  induction tracks with
  | nil => intro infos _; simp [registryText, getlines, getlineAux, loadLines]
  | cons t rest ih =>
    intro infos h
    obtain ⟨ln, hln, hnl, hpat, htok, hstoi⟩ := registryLine_loads t (h t (by simp))
    have hsplit : getlines (registryText (t :: rest)) = ln :: getlines (registryText rest) := by
      have e : registryText (t :: rest) = ln ++ newline :: registryText rest := by
        simp [registryText, hln]
      rw [getlines, e, getlineAux_line ln _ [] hnl]
      simp [getlines]
    rw [hsplit]
    simp only [loadLines, hpat, if_true, htok, hstoi]
    rw [ih _ (fun x hx => h x (List.mem_cons_of_mem _ hx))]
    simp



/-- C4 as stated fails: for the one-track list `("intro", -5000)` the text written by
`saveTracksInfo()` is the line "intro -5000"; the pattern rejects it, so
`loadTracksInfo()` returns with no entry instead of the pair that was saved. -/
theorem registry_roundtrip_negative_offset :
    (saveTracksInfo negativeOffsetPlayer).registry = "intro -5000".toList ++ [newline] ∧
    (loadTracksInfo freshPlayer (some (saveTracksInfo negativeOffsetPlayer).registry)).map
        (fun r => r.audioTracksInfo_.map AudioTrack.pair) = some [] ∧
    (loadTracksInfo freshPlayer (some (saveTracksInfo negativeOffsetPlayer).registry)).map
        (fun r => r.audioTracksInfo_.map AudioTrack.pair)
      ≠ some (negativeOffsetPlayer.audioTracks_.map AudioTrack.pair) :=
  ⟨by decide, by decide, by decide⟩

/-- A name with a space: the line "my book 45000" passes the pattern, `tokens[1]` is
"book", and `std::stoi` throws, so `loadTracksInfo()` does not return. -/
theorem registry_roundtrip_spaced_name :
    (saveTracksInfo spacedNamePlayer).registry = "my book 45000".toList ++ [newline] ∧
    (loadTracksInfo freshPlayer (some (saveTracksInfo spacedNamePlayer).registry)).isNone
      = true :=
  ⟨by decide, by decide⟩

/-- C4 (amended): when every track of `s` has a non-empty name without white space and an
offset in `0 .. 2147483647`, the text `saveTracksInfo()` writes, read back by
`loadTracksInfo()` into a player `r` without registry entries, returns and yields the
same (name, offset) pairs in the same order. -/
theorem registry_roundtrip (s r : AudiobookPlayer) (hr : r.audioTracksInfo_ = [])
    (h : ∀ t ∈ s.audioTracks_, Storable t) :
    (loadTracksInfo r (some (saveTracksInfo s).registry)).map
        (fun r' => r'.audioTracksInfo_.map AudioTrack.pair)
      = some (s.audioTracks_.map AudioTrack.pair) := by
  simp only [loadTracksInfo, saveTracksInfo, hr, loadLines_registryText _ _ h]
  simp [AudioTrack.pair, AudioTrack.info, Function.comp_def]

/-- C4 (amended) at `playingIntro`, whose only track is `("intro", 45000)`. -/
theorem registry_roundtrip_witness :
    (loadTracksInfo freshPlayer (some (saveTracksInfo playingIntro).registry)).map
        (fun r' => r'.audioTracksInfo_.map AudioTrack.pair)
      = some (playingIntro.audioTracks_.map AudioTrack.pair) :=
  registry_roundtrip playingIntro freshPlayer rfl (by
    intro t ht
    simp only [playingIntro, List.mem_singleton] at ht
    subst ht
    refine ⟨by decide, by decide, by decide, by decide⟩)

/-! ## Helper lemmas: discovery and synchronisation -/

theorem create_of_accepted (pfx f : Str) (ty : TrackType) (h : acceptedExtension f = true) :
    ∃ t, AudioTrack.create (pfx ++ f) ty = some t ∧ t.filePath_ = pfx ++ f ∧
      t.trackName_ = stripExtension (fileNameOf (pfx ++ f)) ∧ t.lastPlayedMillisecond_ = 0 := by
  unfold acceptedExtension at h
  by_cases hlen : f.length > 4
  · simp only [hlen, if_true, Bool.or_eq_true, decide_eq_true_eq] at h
    have hdrop : List.drop ((pfx ++ f).length - 3) (pfx ++ f) = List.drop (f.length - 3) f := by
      rw [List.drop_append_eq_append_drop]
      have h1 : pfx.length ≤ (pfx ++ f).length - 3 := by simp; omega
      have h2 : (pfx ++ f).length - 3 - pfx.length = f.length - 3 := by simp; omega
      rw [List.drop_of_length_le h1, h2]; rfl
    have hl3 : ¬ (pfx ++ f).length < 3 := by simp; omega
    unfold AudioTrack.create lastThree
    simp only [hl3, if_false, hdrop]
    rcases h with h | h
    · simp [h]
    · rw [h]
      simp only [show ¬ ("wav".toList = "mp3".toList) by decide, if_false, if_true]
      exact ⟨_, rfl, rfl, rfl, rfl⟩
  · simp [hlen] at h

theorem loadEntries_spec (entries : List DirEntry) : ∀ (acc : List AudioTrack),
    ∃ tracks, loadEntries entries acc = some (acc ++ tracks) ∧
      ∀ e ∈ entries, e.regular = true → acceptedExtension e.filename = true →
        ∃ t ∈ tracks, t.filePath_ = audiobooksDir ++ e.filename ∧
          t.trackName_ = stripExtension (fileNameOf (audiobooksDir ++ e.filename))
          ∧ t.lastPlayedMillisecond_ = 0 := by
  induction entries with
  | nil => intro acc; exact ⟨[], by simp [loadEntries], by simp⟩
  | cons e rest ih =>
    intro acc
    by_cases hacc : (e.regular && acceptedExtension e.filename) = true
    · have hreg : e.regular = true := by
        rw [Bool.and_eq_true] at hacc; exact hacc.1
      have hext : acceptedExtension e.filename = true := by
        rw [Bool.and_eq_true] at hacc; exact hacc.2
      obtain ⟨t, ht, hpath, hname, hoff⟩ :=
        create_of_accepted audiobooksDir e.filename TrackType.STANDARD hext
      obtain ⟨tracks, htr, hmem⟩ := ih (acc ++ [t])
      refine ⟨t :: tracks, ?_, ?_⟩
      · rw [loadEntries, if_pos hacc, ht]
        simp only [htr]
        simp
      · intro e' he' hr' ha'
        rcases List.mem_cons.mp he' with rfl | he'
        · exact ⟨t, by simp, hpath, hname, hoff⟩
        · obtain ⟨t', ht', h'⟩ := hmem e' he' hr' ha'
          exact ⟨t', List.mem_cons_of_mem _ ht', h'⟩
    · obtain ⟨tracks, htr, hmem⟩ := ih acc
      refine ⟨tracks, ?_, ?_⟩
      · rw [loadEntries, if_neg hacc, htr]
      · intro e' he' hr' ha'
        rcases List.mem_cons.mp he' with rfl | he'
        · rw [hr', ha'] at hacc; exact absurd rfl hacc
        · exact hmem e' he' hr' ha'

theorem loadLines_acc (lines : List Str) : ∀ (acc infos : List AudioTrack),
    loadLines lines acc = some infos → ∀ x ∈ acc, x ∈ infos := by
  induction lines with
  | nil =>
    intro acc infos h x hx
    simp only [loadLines, Option.some.injEq] at h
    rw [← h]; exact hx
  | cons l rest ih =>
    intro acc infos h x hx
    unfold loadLines at h
    split at h
    · split at h
      · split at h
        · exact ih _ _ h x (List.mem_append_left _ hx)
        · cases h
      · cases h
    · exact ih _ _ h x hx

theorem loadLines_mem (lines : List Str) : ∀ (acc infos : List AudioTrack) (ln name number : Str)
    (v : Int), loadLines lines acc = some infos → ln ∈ lines → trackInfoPattern_ ln = true →
    tokens ln = [name, number] → stoi number = some v →
    AudioTrack.info name v ∈ infos := by
  induction lines with
  | nil => intro acc infos ln name number v _ hmem; cases hmem
  | cons l rest ih =>
    intro acc infos ln name number v hload hmem hpat htok hstoi
    rcases List.mem_cons.mp hmem with rfl | hmem
    · simp only [loadLines, hpat, if_true, htok, hstoi] at hload
      exact loadLines_acc _ _ _ hload _ (by simp)
    · unfold loadLines at hload
      split at hload
      · split at hload
        · split at hload
          · exact ih _ _ _ _ _ _ hload hmem hpat htok hstoi
          · cases hload
        · cases hload
      · exact ih _ _ _ _ _ _ hload hmem hpat htok hstoi

theorem synchronizeTrack_name (infos : List AudioTrack) : ∀ (t : AudioTrack),
    (synchronizeTrack infos t).trackName_ = t.trackName_ ∧
    (synchronizeTrack infos t).filePath_ = t.filePath_ := by
  induction infos with
  | nil => intro t; exact ⟨rfl, rfl⟩
  | cons e rest ih =>
    intro t
    simp only [synchronizeTrack, List.foldl_cons]
    split
    · exact ih (t.setLastPlayedMillisecond e.lastPlayedMillisecond_)
    · exact ih t

theorem synchronizeTrack_offset (infos : List AudioTrack) (m : Int) : ∀ (t : AudioTrack),
    (∀ e ∈ infos, e.trackName_ = t.trackName_ → e.lastPlayedMillisecond_ = m) →
    ((∃ e ∈ infos, e.trackName_ = t.trackName_) ∨ t.lastPlayedMillisecond_ = m) →
    (synchronizeTrack infos t).lastPlayedMillisecond_ = m := by
  induction infos with
  | nil =>
    intro t _ h
    rcases h with ⟨e, he, _⟩ | h
    · cases he
    · exact h
  | cons e rest ih =>
    intro t hall hex
    simp only [synchronizeTrack, List.foldl_cons]
    by_cases hname : t.trackName_ = e.trackName_
    · simp only [hname, if_true]
      refine ih (t.setLastPlayedMillisecond e.lastPlayedMillisecond_) ?_ ?_
      · intro e' he' hn'
        exact hall e' (List.mem_cons_of_mem _ he') (by rw [hn']; rfl)
      · exact Or.inr (hall e (by simp) hname.symm)
    · simp only [hname, if_false]
      refine ih t (fun e' he' hn' => hall e' (List.mem_cons_of_mem _ he') hn') ?_
      rcases hex with ⟨e', he', hn'⟩ | h
      · rcases List.mem_cons.mp he' with rfl | he'
        · exact absurd hn'.symm hname
        · exact Or.inl ⟨e', he', hn'⟩
      · exact Or.inr h



/-- C9 as stated fails: with the file `intro.mp3` discovered and the registry line
"intro.mp3 45000", construction returns and the track, whose name is "intro", has
last-played offset 0, not 45000. -/
theorem resume_offset_keyed_by_file_name :
    (create idleManager introDirectory (some ("intro.mp3 45000".toList ++ [newline]))).map
        (fun s => s.audioTracks_.map (fun t => (t.filePath_, t.trackName_, t.lastPlayedMillisecond_)))
      = some [("../data/audiobooks/intro.mp3".toList, "intro".toList, 0)] ∧
    (create idleManager introDirectory (some ("intro.mp3 45000".toList ++ [newline]))).map
        (fun s => s.audioTracks_.map (fun t => t.lastPlayedMillisecond_))
      ≠ some [45000] :=
  ⟨by decide, by decide⟩

/-- C9 (amended): let `f` be a regular file of the audiobook directory that `loadTracks`
accepts, with track name `displayName f` (the file name without its last four
characters) not empty and free of white space, and let `0 ≤ m ≤ 2147483647`. If the
registry loads without raising, contains the line `<track name> m`, and gives that name
no other offset, then construction returns and the track made from `f` has last-played
offset `m`. -/
theorem resume_offset_loaded (am : AudioManager) (entries : List DirEntry) (text f : Str)
    (m : Int) (infos : List AudioTrack)
    (hf : { filename := f, regular := true } ∈ entries) (hext : acceptedExtension f = true)
    (hne : displayName f ≠ []) (hns : ∀ c ∈ displayName f, isSpace c = false)
    (hm0 : 0 ≤ m) (hmax : m ≤ 2147483647)
    (hload : loadLines (getlines text) [] = some infos)
    (hline : displayName f ++ [' '] ++ to_string m ∈ getlines text)
    (hsame : ∀ e ∈ infos, e.trackName_ = displayName f → e.lastPlayedMillisecond_ = m) :
    ∃ s, create am (DataPath.directory entries) (some text) = some s ∧
      ∃ t ∈ s.audioTracks_, t.filePath_ = audiobooksDir ++ f ∧
        t.trackName_ = displayName f ∧ t.lastPlayedMillisecond_ = m := by
  obtain ⟨tracks, htracks, hmem⟩ := loadEntries_spec entries []
  obtain ⟨t0, ht0, hpath, hname, _⟩ := hmem _ hf rfl hext
  obtain ⟨ln, hln, _, hpat, htok, hstoi⟩ :=
    registryLine_loads (AudioTrack.info (displayName f) m) ⟨hne, hns, hm0, hmax⟩
  have hlnEq : ln = displayName f ++ [' '] ++ to_string m := by
    have : ln ++ [newline] = (displayName f ++ [' '] ++ to_string m) ++ [newline] := by
      rw [← hln]; rfl
    exact List.append_cancel_right this
  rw [hlnEq] at hpat htok
  have hinfo : AudioTrack.info (displayName f) m ∈ infos :=
    loadLines_mem _ _ _ _ _ _ _ hload hline hpat htok hstoi
  have hcreate : ∃ s, create am (DataPath.directory entries) (some text) = some s ∧
      s.audioTracks_ = tracks.map (synchronizeTrack infos) := by
    simp only [create, loadTracks, htracks, List.nil_append, Option.map_some', Option.some_bind,
      loadTracksInfo, hload]
    exact ⟨_, rfl, rfl⟩
  obtain ⟨s, hs, htr⟩ := hcreate
  refine ⟨s, hs, synchronizeTrack infos t0, ?_, ?_, ?_, ?_⟩
  · rw [htr]; exact List.mem_map_of_mem _ ht0
  · rw [(synchronizeTrack_name infos t0).2, hpath]
  · rw [(synchronizeTrack_name infos t0).1, hname]; rfl
  · refine synchronizeTrack_offset infos m t0 ?_ (Or.inl ⟨_, hinfo, ?_⟩)
    · intro e he hn
      exact hsame e he (by rw [hn, hname]; rfl)
    · rw [hname]; rfl

/-- C9 (amended) for the file `intro.mp3` and the registry line "intro 45000". -/
theorem resume_offset_loaded_witness :
    ∃ s, create idleManager (DataPath.directory [{ filename := "intro.mp3".toList, regular := true }])
        (some ("intro 45000".toList ++ [newline])) = some s ∧
      ∃ t ∈ s.audioTracks_, t.filePath_ = audiobooksDir ++ "intro.mp3".toList ∧
        t.trackName_ = displayName "intro.mp3".toList ∧ t.lastPlayedMillisecond_ = 45000 :=
  resume_offset_loaded idleManager [{ filename := "intro.mp3".toList, regular := true }]
    ("intro 45000".toList ++ [newline]) "intro.mp3".toList 45000
    [AudioTrack.info "intro".toList 45000]
    (by decide) (by decide) (by decide) (by decide) (by decide) (by decide) (by decide)
    (by decide) (by decide)

/-- C11: (i) with ramp speed 0, when the task `rewind()` / `fastForward()` would act on
(current task in `PLAYING`, paused task in `PAUSED`) is absent or not pausable (player
`s`), both return and leave the whole player unchanged; (ii) when the task
`pauseToggle()` would act on (paused task in `PAUSED`, `REWINDING`, `FAST_FORWARDING`,
current task otherwise) is absent or not pausable (player `r`), it returns and leaves
the whole player unchanged. State, speed, both task pointers, track index, every
offset and the list of tasks (so no prompt is started) are therefore as before. -/
theorem not_applicable_requests_change_nothing (s r : AudiobookPlayer)
    (hspeed : s.fastForwardingSpeed_ = 0) (hs : NotApplicable s (rampTarget s))
    (hr : NotApplicable r (pauseTarget r)) :
    rewind s = some s ∧ fastForward s = some s ∧ pauseToggle r = some r := by
  refine ⟨?_, ?_, ?_⟩
  · have hb : rewindBranch s = some (true, s) := by
      unfold rewindBranch
      simp only [hspeed, if_true]
      rcases hs with h | ⟨p, t, hp, ht, hnp⟩
      · simp only [rampTarget] at h
        simp only [h]
      · simp only [rampTarget] at hp
        simp only [hp, ht, hnp, if_true]
    simp only [rewind, hb]
  · have hb : fastForwardBranch s = some (true, s) := by
      unfold fastForwardBranch
      simp only [hspeed, if_true]
      rcases hs with h | ⟨p, t, hp, ht, hnp⟩
      · simp only [rampTarget] at h
        simp only [h]
      · simp only [rampTarget] at hp
        simp only [hp, ht, hnp, if_true]
    simp only [fastForward, hb]
  · unfold pauseToggle
    by_cases hst : r.currentState_ = State.PAUSED ∨ r.currentState_ = State.FAST_FORWARDING
        ∨ r.currentState_ = State.REWINDING
    · have hst' : r.currentState_ = State.PAUSED ∨ r.currentState_ = State.REWINDING
          ∨ r.currentState_ = State.FAST_FORWARDING := by
        rcases hst with h | h | h
        · exact Or.inl h
        · exact Or.inr (Or.inr h)
        · exact Or.inr (Or.inl h)
      simp only [hst, if_true]
      rcases hr with h | ⟨p, t, hp, ht, hnp⟩
      · simp only [pauseTarget, hst', if_true] at h
        simp only [h]
      · simp only [pauseTarget, hst', if_true] at hp
        simp only [hp, ht, hnp, if_true]
    · have hst' : ¬ (r.currentState_ = State.PAUSED ∨ r.currentState_ = State.REWINDING
          ∨ r.currentState_ = State.FAST_FORWARDING) := by
        intro h; apply hst
        rcases h with h | h | h
        · exact Or.inl h
        · exact Or.inr (Or.inr h)
        · exact Or.inr (Or.inl h)
      simp only [hst, if_false]
      rcases hr with h | ⟨p, t, hp, ht, hnp⟩
      · simp only [pauseTarget, hst', if_false] at h
        simp only [h]
      · simp only [pauseTarget, hst', if_false] at hp
        simp only [hp, ht, hnp, if_true]

/-- C11 at `playingNotPausable` (current task not pausable) for the ramp requests and at
`pausedWithoutTask` (no paused task) for the pause request. -/
theorem not_applicable_requests_change_nothing_witness :
    rewind playingNotPausable = some playingNotPausable ∧
    fastForward playingNotPausable = some playingNotPausable ∧
    pauseToggle pausedWithoutTask = some pausedWithoutTask :=
  not_applicable_requests_change_nothing playingNotPausable pausedWithoutTask rfl
    (Or.inr ⟨0, { introTask with pausable := false }, rfl, rfl, rfl⟩) (Or.inl rfl)

theorem loadEntries_paths (entries : List DirEntry) : ∀ (acc : List AudioTrack),
    ∃ tracks, loadEntries entries acc = some (acc ++ tracks) ∧
      tracks.map (fun t => t.filePath_) =
        (entries.filter (fun e => e.regular && acceptedExtension e.filename)).map
          (fun e => audiobooksDir ++ e.filename) := by
  induction entries with
  | nil => intro acc; exact ⟨[], by simp [loadEntries], by simp⟩
  | cons e rest ih =>
    intro acc
    by_cases hacc : (e.regular && acceptedExtension e.filename) = true
    · have hext : acceptedExtension e.filename = true := by
        rw [Bool.and_eq_true] at hacc; exact hacc.2
      obtain ⟨t, ht, hpath, _, _⟩ :=
        create_of_accepted audiobooksDir e.filename TrackType.STANDARD hext
      obtain ⟨tracks, htr, hmap⟩ := ih (acc ++ [t])
      refine ⟨t :: tracks, ?_, ?_⟩
      · rw [loadEntries, if_pos hacc, ht]
        simp only [htr]
        simp
      · simp only [List.filter_cons, hacc, if_true, List.map_cons, hpath, hmap]
    · obtain ⟨tracks, htr, hmap⟩ := ih acc
      refine ⟨tracks, ?_, ?_⟩
      · rw [loadEntries, if_neg hacc, htr]
      · simp only [List.filter_cons, hacc, if_false]
        exact hmap

theorem drop_stem (stem ext : Str) : List.drop ((stem ++ ext).length - ext.length) (stem ++ ext) = ext := by
  have : (stem ++ ext).length - ext.length = stem.length := by simp
  rw [this, List.drop_left]

theorem acceptedExtension_iff (name : Str) :
    acceptedExtension name = true ↔
      ∃ stem : Str, 2 ≤ stem.length ∧
        (name = stem ++ "mp3".toList ∨ name = stem ++ "wav".toList) := by
  have h3 : ("mp3".toList).length = 3 := rfl
  have w3 : ("wav".toList).length = 3 := rfl
  constructor
  · intro h
    unfold acceptedExtension at h
    by_cases hlen : name.length > 4
    · simp only [hlen, if_true, Bool.or_eq_true, decide_eq_true_eq] at h
      refine ⟨name.take (name.length - 3), by rw [List.length_take]; omega, ?_⟩
      rcases h with h | h
      · left
        rw [← h]; exact (List.take_append_drop _ _).symm
      · right
        rw [← h]; exact (List.take_append_drop _ _).symm
    · simp [hlen] at h
  · rintro ⟨stem, hstem, h | h⟩
    · have hl : name.length > 4 := by rw [h, List.length_append, h3]; omega
      have hd : List.drop (name.length - 3) name = "mp3".toList := by
        have := drop_stem stem "mp3".toList
        rw [h3] at this
        rw [h]; exact this
      unfold acceptedExtension
      simp only [hl, if_true, hd, decide_True, Bool.true_or]
    · have hl : name.length > 4 := by rw [h, List.length_append, w3]; omega
      have hd : List.drop (name.length - 3) name = "wav".toList := by
        have := drop_stem stem "wav".toList
        rw [w3] at this
        rw [h]; exact this
      unfold acceptedExtension
      simp only [hl, if_true, hd, decide_True, Bool.or_true]

/-- C12 as stated fails: from a directory with the regular files `xxmp3`, `.mp3`, `a.wav`
and `notes.txt`, `loadTracks()` adds `xxmp3`, which does not end in ".mp3" or ".wav",
and skips `.mp3`, which does. -/
theorem discovery_filter_ignores_dot :
    (loadTracks freshPlayer mixedDirectory).map
        (fun s => s.audioTracks_.map (fun t => t.filePath_))
      = some ["../data/audiobooks/xxmp3".toList, "../data/audiobooks/a.wav".toList] ∧
    hasListedExtension "xxmp3".toList = false ∧
    hasListedExtension ".mp3".toList = true :=
  ⟨by decide, by decide, by decide⟩

/-- C12 (amended): `loadTracks()` over a directory returns, and the tracks it adds are, in
directory order, exactly the regular files the filter accepts; the filter accepts a name
exactly when the name is some stem of at least two characters followed by `mp3` or `wav`
(the name is longer than four characters and its last three characters are `mp3` or
`wav`; a dot is not asked for). -/
theorem discovery_filter_last_three (s : AudiobookPlayer) (entries : List DirEntry)
    (name : Str) :
    (∃ s', loadTracks s (DataPath.directory entries) = some s' ∧
      s'.audioTracks_.map (fun t => t.filePath_) =
        s.audioTracks_.map (fun t => t.filePath_) ++
          (entries.filter (fun e => e.regular && acceptedExtension e.filename)).map
            (fun e => audiobooksDir ++ e.filename)) ∧
    (acceptedExtension name = true ↔
      ∃ stem : Str, 2 ≤ stem.length ∧
        (name = stem ++ "mp3".toList ∨ name = stem ++ "wav".toList)) := by
  refine ⟨?_, acceptedExtension_iff name⟩
  obtain ⟨tracks, htr, hmap⟩ := loadEntries_paths entries s.audioTracks_
  have hload : ∃ s', loadTracks s (DataPath.directory entries) = some s' ∧
      s'.audioTracks_ = s.audioTracks_ ++ tracks := by
    simp only [loadTracks, htr, Option.map_some']
    exact ⟨_, rfl, rfl⟩
  obtain ⟨s', hs', htracks⟩ := hload
  exact ⟨s', hs', by rw [htracks, List.map_append, hmap]⟩

/-! ## Helper lemmas: what a returning action does to speed and state -/

theorem callTask_sameRamp (s x : AudiobookPlayer) (ptr : Option Nat) (f : AudioTask → AudioTask)
    (h : callTask s ptr f = some x) : SameRamp x s := by
  unfold callTask at h
  split at h
  · cases h
  · split at h
    · cases h
    · cases h; exact ⟨rfl, rfl⟩

theorem callTaskIfSet_sameRamp (s x : AudiobookPlayer) (ptr : Option Nat)
    (f : AudioTask → AudioTask) (h : callTaskIfSet s ptr f = some x) : SameRamp x s := by
  unfold callTaskIfSet at h
  split at h
  · cases h; exact ⟨rfl, rfl⟩
  · exact callTask_sameRamp _ _ _ _ h

theorem updateCurrentTrackInfo_sameRamp (s x : AudiobookPlayer) (ptr : Option Nat)
    (h : updateCurrentTrackInfo s ptr = some x) : SameRamp x s := by
  unfold updateCurrentTrackInfo at h
  split at h
  · cases h
  · split at h
    · cases h; exact ⟨rfl, rfl⟩
    · cases h

theorem play_sameRamp (s : AudiobookPlayer) (es : List Element) (cb : Bool) :
    SameRamp (play s es cb) s := ⟨rfl, rfl⟩

theorem SameRamp.trans {a b c : AudiobookPlayer} (h1 : SameRamp a b) (h2 : SameRamp b c) :
    SameRamp a c := ⟨h1.1.trans h2.1, h1.2.trans h2.2⟩

theorem rewindBranch_ramp (s s1 : AudiobookPlayer) (b : Bool)
    (h : rewindBranch s = some (b, s1)) :
    (s.fastForwardingSpeed_ = 0 ∧
      ((b = true ∧ s1 = s) ∨
       (b = false ∧ s1.fastForwardingSpeed_ = -2 ∧ s1.currentState_ = State.REWINDING))) ∨
    (s.fastForwardingSpeed_ = 2 ∧ b = false ∧ s1.fastForwardingSpeed_ = 0 ∧
      s1.currentState_ = State.PLAYING) ∨
    (s.fastForwardingSpeed_ < 0 ∧ b = false ∧
      s1.fastForwardingSpeed_ = s.fastForwardingSpeed_ * 2 ∧
      s1.currentState_ = s.currentState_) ∨
    (0 < s.fastForwardingSpeed_ ∧ s.fastForwardingSpeed_ ≠ 2 ∧ b = false ∧
      s1.fastForwardingSpeed_ = mulHalf s.fastForwardingSpeed_ ∧
      s1.currentState_ = s.currentState_) := by
  unfold rewindBranch at h
  by_cases h0 : s.fastForwardingSpeed_ = 0
  · left
    refine ⟨h0, ?_⟩
    rw [if_pos h0] at h
    generalize (if s.currentState_ = State.PLAYING then s.currentAudioTask_
      else if s.currentState_ = State.PAUSED then s.pausedAudioTask_ else none) = checked at h
    cases checked with
    | none => cases h; exact Or.inl ⟨rfl, rfl⟩
    | some p =>
      simp only at h
      cases ht : s.task? p with
      | none => rw [ht] at h; cases h
      | some t =>
        rw [ht] at h
        simp only at h
        by_cases hp : t.pausable = false
        · rw [if_pos hp] at h; cases h; exact Or.inl ⟨rfl, rfl⟩
        · rw [if_neg hp, Option.map_eq_some'] at h
          obtain ⟨x, _, hx⟩ := h
          cases hx
          exact Or.inr ⟨rfl, rfl, rfl⟩
  · right
    by_cases h2 : s.fastForwardingSpeed_ = 2
    · left
      rw [if_neg h0, if_pos h2] at h
      simp only [Option.bind_eq_some, Option.map_eq_some'] at h
      obtain ⟨s3, h3, s4, h4, s5, h5, hx⟩ := h
      cases hx
      have r3 := callTask_sameRamp _ _ _ _ h3
      have r4 := callTask_sameRamp _ _ _ _ h4
      have r5 := updateCurrentTrackInfo_sameRamp _ _ _ h5
      exact ⟨h2, rfl, ((r5.trans r4).trans r3).1, rfl⟩
    · right
      rw [if_neg h0, if_neg h2] at h
      by_cases hn : s.fastForwardingSpeed_ < 0
      · left
        rw [if_pos hn] at h
        cases h
        exact ⟨hn, rfl, rfl, rfl⟩
      · right
        have hp : 0 < s.fastForwardingSpeed_ := by omega
        rw [if_neg hn, if_pos hp] at h
        cases h
        exact ⟨hp, h2, rfl, rfl, rfl⟩

theorem fastForwardBranch_ramp (s s1 : AudiobookPlayer) (b : Bool)
    (h : fastForwardBranch s = some (b, s1)) :
    (s.fastForwardingSpeed_ = 0 ∧
      ((b = true ∧ s1 = s) ∨
       (b = false ∧ s1.fastForwardingSpeed_ = 2 ∧ s1.currentState_ = State.FAST_FORWARDING))) ∨
    (s.fastForwardingSpeed_ = -2 ∧ b = false ∧ s1.fastForwardingSpeed_ = 0 ∧
      s1.currentState_ = State.PLAYING) ∨
    (s.fastForwardingSpeed_ < 0 ∧ s.fastForwardingSpeed_ ≠ -2 ∧ b = false ∧
      s1.fastForwardingSpeed_ = mulHalf s.fastForwardingSpeed_ ∧
      s1.currentState_ = s.currentState_) ∨
    (0 < s.fastForwardingSpeed_ ∧ b = false ∧
      s1.fastForwardingSpeed_ = s.fastForwardingSpeed_ * 2 ∧
      s1.currentState_ = s.currentState_) := by
  unfold fastForwardBranch at h
  by_cases h0 : s.fastForwardingSpeed_ = 0
  · left
    refine ⟨h0, ?_⟩
    rw [if_pos h0] at h
    generalize (if s.currentState_ = State.PLAYING then s.currentAudioTask_
      else if s.currentState_ = State.PAUSED then s.pausedAudioTask_ else none) = checked at h
    cases checked with
    | none => cases h; exact Or.inl ⟨rfl, rfl⟩
    | some p =>
      simp only at h
      cases ht : s.task? p with
      | none => rw [ht] at h; cases h
      | some t =>
        rw [ht] at h
        simp only at h
        by_cases hp : t.pausable = false
        · rw [if_pos hp] at h; cases h; exact Or.inl ⟨rfl, rfl⟩
        · rw [if_neg hp, Option.map_eq_some'] at h
          obtain ⟨x, _, hx⟩ := h
          cases hx
          exact Or.inr ⟨rfl, rfl, rfl⟩
  · right
    by_cases h2 : s.fastForwardingSpeed_ = -2
    · left
      rw [if_neg h0, if_pos h2] at h
      simp only [Option.bind_eq_some, Option.map_eq_some'] at h
      obtain ⟨s3, h3, s4, h4, s5, h5, hx⟩ := h
      cases hx
      have r3 := callTask_sameRamp _ _ _ _ h3
      have r4 := callTask_sameRamp _ _ _ _ h4
      have r5 := updateCurrentTrackInfo_sameRamp _ _ _ h5
      exact ⟨h2, rfl, ((r5.trans r4).trans r3).1, rfl⟩
    · right
      rw [if_neg h0, if_neg h2] at h
      by_cases hn : s.fastForwardingSpeed_ < 0
      · left
        rw [if_pos hn] at h
        cases h
        exact ⟨hn, h2, rfl, rfl, rfl⟩
      · right
        have hp : 0 < s.fastForwardingSpeed_ := by omega
        rw [if_neg hn, if_pos hp] at h
        cases h
        exact ⟨hp, rfl, rfl, rfl⟩


theorem rewindAnnounce_sameRamp (s x : AudiobookPlayer) (h : rewindAnnounce s = some x) :
    SameRamp x s := by
  unfold rewindAnnounce at h
  split at h
  · cases h; exact play_sameRamp _ _ _
  · split at h
    · rw [Option.map_eq_some'] at h
      obtain ⟨y, hy, hx⟩ := h
      cases hx
      exact (play_sameRamp _ _ _).trans (callTaskIfSet_sameRamp _ _ _ _ hy)
    · cases h; exact ⟨rfl, rfl⟩

theorem fastForwardAnnounce_sameRamp (s x : AudiobookPlayer)
    (h : fastForwardAnnounce s = some x) : SameRamp x s := by
  unfold fastForwardAnnounce at h
  split at h
  · cases h; exact play_sameRamp _ _ _
  · split at h
    · rw [Option.map_eq_some'] at h
      obtain ⟨y, hy, hx⟩ := h
      cases hx
      exact (play_sameRamp _ _ _).trans (callTaskIfSet_sameRamp _ _ _ _ hy)
    · cases h; exact ⟨rfl, rfl⟩

theorem rewind_cases (s s' : AudiobookPlayer) (h : rewind s = some s') :
    s' = s ∨ ∃ s1, rewindBranch s = some (false, s1) ∧
      s'.fastForwardingSpeed_ = (rewindClamp s1).fastForwardingSpeed_ ∧
      s'.currentState_ = s1.currentState_ := by
  unfold rewind at h
  split at h
  · cases h
  · next s1 hb =>
    cases h
    rcases rewindBranch_ramp _ _ _ hb with
      ⟨_, ⟨_, e⟩ | ⟨hf, _⟩⟩ | ⟨_, hf, _⟩ | ⟨_, hf, _⟩ | ⟨_, _, hf, _⟩
    · exact Or.inl e
    all_goals cases hf
  · next s1 hb =>
    have hr := rewindAnnounce_sameRamp _ _ h
    refine Or.inr ⟨s1, hb, hr.1, hr.2.trans ?_⟩
    unfold rewindClamp; split <;> rfl

theorem fastForward_cases (s s' : AudiobookPlayer) (h : fastForward s = some s') :
    s' = s ∨ ∃ s1, fastForwardBranch s = some (false, s1) ∧
      s'.fastForwardingSpeed_ = (fastForwardClamp s1).fastForwardingSpeed_ ∧
      s'.currentState_ = s1.currentState_ := by
  unfold fastForward at h
  split at h
  · cases h
  · next s1 hb =>
    cases h
    rcases fastForwardBranch_ramp _ _ _ hb with
      ⟨_, ⟨_, e⟩ | ⟨hf, _⟩⟩ | ⟨_, hf, _⟩ | ⟨_, _, hf, _⟩ | ⟨_, hf, _⟩
    · exact Or.inl e
    all_goals cases hf
  · next s1 hb =>
    have hr := fastForwardAnnounce_sameRamp _ _ h
    refine Or.inr ⟨s1, hb, hr.1, hr.2.trans ?_⟩
    unfold fastForwardClamp; split <;> rfl

theorem pauseToggle_cases (s s' : AudiobookPlayer) (h : pauseToggle s = some s') :
    s' = s ∨ (s'.fastForwardingSpeed_ = 0 ∧ s'.currentState_ = State.PLAYING) ∨
      (s'.fastForwardingSpeed_ = 0 ∧ s'.currentState_ = State.PAUSED) := by
  unfold pauseToggle at h
  by_cases hst : s.currentState_ = State.PAUSED ∨ s.currentState_ = State.FAST_FORWARDING
      ∨ s.currentState_ = State.REWINDING
  · rw [if_pos hst] at h
    cases hp : s.pausedAudioTask_ with
    | none => simp only [hp] at h; cases h; exact Or.inl rfl
    | some p =>
      simp only [hp] at h
      cases ht : s.task? p with
      | none => simp only [ht] at h; cases h
      | some t =>
        simp only [ht] at h
        by_cases hpa : t.pausable = false
        · rw [if_pos hpa] at h; cases h; exact Or.inl rfl
        · rw [if_neg hpa] at h
          simp only [Option.bind_eq_some, Option.map_eq_some'] at h
          obtain ⟨s2, h2, s3, h3, s5, h5, s6, h6, hx⟩ := h
          have r2 := callTask_sameRamp _ _ _ _ h2
          have r3 := updateCurrentTrackInfo_sameRamp _ _ _ h3
          have r5 := callTask_sameRamp _ _ _ _ h5
          have r6 : SameRamp s6 s5 := by
            split at h6
            · rw [Option.map_eq_some'] at h6
              obtain ⟨y, hy, hy'⟩ := h6
              cases hy'
              exact SameRamp.trans (b := y) ⟨rfl, rfl⟩ (callTask_sameRamp _ _ _ _ hy)
            · cases h6; exact ⟨rfl, rfl⟩
          have r := ((r6.trans r5).trans (play_sameRamp _ _ _)).trans
            (SameRamp.trans (b := s3) ⟨rfl, rfl⟩ (r3.trans r2))
          cases hx
          exact Or.inr (Or.inl ⟨r.1, r.2⟩)
  · rw [if_neg hst] at h
    cases hc : s.currentAudioTask_ with
    | none => simp only [hc] at h; cases h; exact Or.inl rfl
    | some c =>
      simp only [hc] at h
      cases ht : s.task? c with
      | none => simp only [ht] at h; cases h
      | some t =>
        simp only [ht] at h
        by_cases hpa : t.pausable = false
        · rw [if_pos hpa] at h; cases h; exact Or.inl rfl
        · rw [if_neg hpa] at h
          cases htr : s.audioTracks_[s.currentTrackIndex_]? with
          | none => simp only [htr] at h; cases h
          | some tr =>
            simp only [htr] at h
            simp only [Option.bind_eq_some, Option.map_eq_some'] at h
            obtain ⟨s3, h3, s4, h4, s5, h5, hx⟩ := h
            have r3 := callTask_sameRamp _ _ _ _ h3
            have r4 := updateCurrentTrackInfo_sameRamp _ _ _ h4
            have r5 := callTaskIfSet_sameRamp _ _ _ _ h5
            have r := (SameRamp.trans (b := s4) (r5.trans ⟨rfl, rfl⟩) (r4.trans r3))
            cases hx
            exact Or.inr (Or.inr ⟨r.1, r.2⟩)

theorem stopAudiobook_ramp (s s' : AudiobookPlayer) (h : stopAudiobook s = some s') :
    s'.fastForwardingSpeed_ = s.fastForwardingSpeed_ ∧ s'.currentState_ = State.CHOOSING := by
  unfold stopAudiobook at h
  simp only [Option.map_eq_some'] at h
  obtain ⟨s1, h1, hx⟩ := h
  have r1 : SameRamp s1 s := by
    split at h1
    · rw [Option.bind_eq_some] at h1
      obtain ⟨y, hy, hy'⟩ := h1
      exact (callTask_sameRamp _ _ _ _ hy').trans (updateCurrentTrackInfo_sameRamp _ _ _ hy)
    · cases h1; exact ⟨rfl, rfl⟩
  cases hx
  exact ⟨r1.1, rfl⟩

theorem playChosenAudiobook_ramp (s s' : AudiobookPlayer)
    (h : playChosenAudiobook s = some s') :
    s'.fastForwardingSpeed_ = s.fastForwardingSpeed_ ∧ s'.currentState_ = State.PLAYING := by
  unfold playChosenAudiobook at h
  simp only at h
  split at h
  · cases h
  · rw [Option.map_eq_some'] at h
    obtain ⟨s2, h2, hx⟩ := h
    have r2 := callTaskIfSet_sameRamp _ _ _ _ h2
    cases hx
    exact ⟨r2.1, r2.2⟩

theorem switchToNextAudiobook_sameRamp (s s' : AudiobookPlayer)
    (h : switchToNextAudiobook s = some s') : SameRamp s' s := by
  unfold switchToNextAudiobook at h
  simp only [Option.bind_eq_some, Option.map_eq_some'] at h
  obtain ⟨s2, h2, tr, _, hx⟩ := h
  have r2 := callTaskIfSet_sameRamp _ _ _ _ h2
  cases hx
  refine (play_sameRamp _ _ _).trans (r2.trans ?_)
  split <;> exact ⟨rfl, rfl⟩

theorem switchToPreviousAudiobook_sameRamp (s s' : AudiobookPlayer)
    (h : switchToPreviousAudiobook s = some s') : SameRamp s' s := by
  unfold switchToPreviousAudiobook at h
  simp only [Option.bind_eq_some, Option.map_eq_some'] at h
  obtain ⟨s2, h2, tr, _, hx⟩ := h
  have r2 := callTaskIfSet_sameRamp _ _ _ _ h2
  cases hx
  refine (play_sameRamp _ _ _).trans (r2.trans ?_)
  split <;> exact ⟨rfl, rfl⟩

theorem audiobookFinishCallback_cases (s s' : AudiobookPlayer)
    (h : audiobookFinishCallback s = some s') :
    s' = s ∨ (s.currentState_ = State.PLAYING ∧
      s'.fastForwardingSpeed_ = s.fastForwardingSpeed_ ∧ s'.currentState_ = State.CHOOSING) := by
  unfold audiobookFinishCallback at h
  by_cases hst : s.currentState_ = State.PLAYING
  · rw [if_pos hst] at h
    split at h
    · cases h
    · cases h; exact Or.inr ⟨hst, rfl, rfl⟩
  · rw [if_neg hst] at h
    cases h; exact Or.inl rfl

theorem create_ramp (am : AudioManager) (path : DataPath) (file : Option Str)
    (s : AudiobookPlayer) (h : create am path file = some s) :
    s.fastForwardingSpeed_ = 0 ∧ s.currentState_ = State.CHOOSING := by
  unfold create at h
  simp only [Option.bind_eq_some, Option.map_eq_some'] at h
  obtain ⟨s1, h1, s2, h2, hx⟩ := h
  have e1 : s1.fastForwardingSpeed_ = 0 := by
    unfold loadTracks at h1
    split at h1
    · cases h1; rfl
    · cases h1; rfl
    · rw [Option.map_eq_some'] at h1
      obtain ⟨y, _, hy⟩ := h1
      cases hy; rfl
  have e2 : s2.fastForwardingSpeed_ = 0 := by
    unfold loadTracksInfo at h2
    split at h2
    · cases h2
    · rw [Option.map_eq_some'] at h2
      obtain ⟨y, _, hy⟩ := h2
      cases hy; exact e1
  cases hx
  exact ⟨e2, rfl⟩

theorem fastForwardingTimerTick_sameRamp (s : AudiobookPlayer) :
    SameRamp (fastForwardingTimerTick s) s := by
  unfold fastForwardingTimerTick
  split <;> exact ⟨rfl, rfl⟩

theorem engineReports_sameRamp (s : AudiobookPlayer) (p : Nat) (pausable : Bool)
    (position : Int) : SameRamp (engineReports s p pausable position) s := by
  unfold engineReports
  split <;> exact ⟨rfl, rfl⟩

theorem RampInvariant.of_sameRamp {x s : AudiobookPlayer} (h : SameRamp x s)
    (hs : RampInvariant s) : RampInvariant x := by
  unfold RampInvariant at hs ⊢
  rw [h.1, h.2]; exact hs

theorem RampInvariant.of_idle {x : AudiobookPlayer} (h0 : x.fastForwardingSpeed_ = 0)
    (hst : x.currentState_ = State.CHOOSING ∨ x.currentState_ = State.PLAYING
      ∨ x.currentState_ = State.PAUSED) : RampInvariant x := by
  unfold RampInvariant
  rw [h0]
  refine ⟨Or.inl rfl, ?_, ?_, fun _ => rfl⟩
  · constructor
    · intro h; exact absurd h (by decide)
    · intro h; rcases hst with e | e | e <;> rw [e] at h <;> cases h
  · constructor
    · intro h; exact absurd h (by decide)
    · intro h; rcases hst with e | e | e <;> rw [e] at h <;> cases h

theorem RampInvariant.of_forward {x : AudiobookPlayer} (k : Nat) (h1 : 1 ≤ k) (h7 : k ≤ 7)
    (hv : x.fastForwardingSpeed_ = 2 ^ k) (hst : x.currentState_ = State.FAST_FORWARDING) :
    RampInvariant x := by
  have hpos : (0 : Int) < 2 ^ k := by positivity
  unfold RampInvariant
  rw [hv, hst]
  refine ⟨Or.inr ⟨k, h1, h7, Or.inl rfl⟩, ⟨fun _ => rfl, fun _ => hpos⟩, ?_, ?_⟩
  · constructor
    · intro h; omega
    · intro h; cases h
  · intro h; rcases h with e | e | e <;> cases e

theorem RampInvariant.of_backward {x : AudiobookPlayer} (k : Nat) (h1 : 1 ≤ k) (h7 : k ≤ 7)
    (hv : x.fastForwardingSpeed_ = -2 ^ k) (hst : x.currentState_ = State.REWINDING) :
    RampInvariant x := by
  have hpos : (0 : Int) < 2 ^ k := by positivity
  unfold RampInvariant
  rw [hv, hst]
  refine ⟨Or.inr ⟨k, h1, h7, Or.inr rfl⟩, ?_, ⟨fun _ => rfl, fun _ => by omega⟩, ?_⟩
  · constructor
    · intro h; omega
    · intro h; cases h
  · intro h; rcases h with e | e | e <;> cases e

theorem RampInvariant.neg_speed {s : AudiobookPlayer} (hs : RampInvariant s)
    (h : s.fastForwardingSpeed_ < 0) :
    ∃ k : Nat, 1 ≤ k ∧ k ≤ 7 ∧ s.fastForwardingSpeed_ = -2 ^ k ∧
      s.currentState_ = State.REWINDING := by
  obtain ⟨hv, _, hrew, _⟩ := hs
  rcases hv with h0 | ⟨k, h1, h7, hk | hk⟩
  · omega
  · have hpos : (0 : Int) < 2 ^ k := by positivity
    omega
  · exact ⟨k, h1, h7, hk, hrew.mp h⟩

theorem RampInvariant.pos_speed {s : AudiobookPlayer} (hs : RampInvariant s)
    (h : 0 < s.fastForwardingSpeed_) :
    ∃ k : Nat, 1 ≤ k ∧ k ≤ 7 ∧ s.fastForwardingSpeed_ = 2 ^ k ∧
      s.currentState_ = State.FAST_FORWARDING := by
  obtain ⟨hv, hff, _, _⟩ := hs
  rcases hv with h0 | ⟨k, h1, h7, hk | hk⟩
  · omega
  · exact ⟨k, h1, h7, hk, hff.mp h⟩
  · have hpos : (0 : Int) < 2 ^ k := by positivity
    omega

theorem rewindClamp_speed (s : AudiobookPlayer) :
    (rewindClamp s).fastForwardingSpeed_ =
      if s.fastForwardingSpeed_ < -128 then -128 else s.fastForwardingSpeed_ := by
  unfold rewindClamp; split <;> rfl

theorem fastForwardClamp_speed (s : AudiobookPlayer) :
    (fastForwardClamp s).fastForwardingSpeed_ =
      if s.fastForwardingSpeed_ > 128 then 128 else s.fastForwardingSpeed_ := by
  unfold fastForwardClamp; split <;> rfl

theorem rewind_invariant (s s' : AudiobookPlayer) (hs : RampInvariant s)
    (h : rewind s = some s') : RampInvariant s' := by
  rcases rewind_cases s s' h with rfl | ⟨s1, hb, hsp, hst⟩
  · exact hs
  rw [rewindClamp_speed] at hsp
  rcases rewindBranch_ramp _ _ _ hb with
    ⟨_, ⟨hf, _⟩ | ⟨_, hv, hst1⟩⟩ | ⟨_, _, hv, hst1⟩ | ⟨hn, _, hv, hst1⟩ | ⟨hp, h2, _, hv, hst1⟩
  · cases hf
  · refine RampInvariant.of_backward 1 (by decide) (by decide) ?_ (hst.trans hst1)
    rw [hsp, hv]; decide
  · refine RampInvariant.of_idle ?_ (Or.inr (Or.inl (hst.trans hst1)))
    rw [hsp, hv]; decide
  · obtain ⟨k, h1, h7, hk, hrew⟩ := hs.neg_speed hn
    refine RampInvariant.of_backward (min (k + 1) 7) (by omega) (by omega) ?_
      ((hst.trans hst1).trans hrew)
    rw [hsp, hv, hk]
    interval_cases k <;> norm_num
  · obtain ⟨k, h1, h7, hk, hff⟩ := hs.pos_speed hp
    have hk2 : 2 ≤ k := by
      rcases Nat.lt_or_ge k 2 with hlt | hge
      · have : k = 1 := by omega
        rw [this] at hk
        exact absurd hk h2
      · exact hge
    refine RampInvariant.of_forward (k - 1) (by omega) (by omega) ?_
      ((hst.trans hst1).trans hff)
    rw [hsp, hv, hk, (mulHalf_pow k hk2 h7).1]
    have hpos : (0 : Int) < 2 ^ (k - 1) := by positivity
    rw [if_neg (by omega)]

theorem fastForward_invariant (s s' : AudiobookPlayer) (hs : RampInvariant s)
    (h : fastForward s = some s') : RampInvariant s' := by
  rcases fastForward_cases s s' h with rfl | ⟨s1, hb, hsp, hst⟩
  · exact hs
  rw [fastForwardClamp_speed] at hsp
  rcases fastForwardBranch_ramp _ _ _ hb with
    ⟨_, ⟨hf, _⟩ | ⟨_, hv, hst1⟩⟩ | ⟨_, _, hv, hst1⟩ | ⟨hn, h2, _, hv, hst1⟩ | ⟨hp, _, hv, hst1⟩
  · cases hf
  · refine RampInvariant.of_forward 1 (by decide) (by decide) ?_ (hst.trans hst1)
    rw [hsp, hv]; decide
  · refine RampInvariant.of_idle ?_ (Or.inr (Or.inl (hst.trans hst1)))
    rw [hsp, hv]; decide
  · obtain ⟨k, h1, h7, hk, hrew⟩ := hs.neg_speed hn
    have hk2 : 2 ≤ k := by
      rcases Nat.lt_or_ge k 2 with hlt | hge
      · have : k = 1 := by omega
        rw [this] at hk
        exact absurd hk h2
      · exact hge
    refine RampInvariant.of_backward (k - 1) (by omega) (by omega) ?_
      ((hst.trans hst1).trans hrew)
    rw [hsp, hv, hk, (mulHalf_pow k hk2 h7).2]
    have hpos : (0 : Int) < 2 ^ (k - 1) := by positivity
    rw [if_neg (by omega)]
  · obtain ⟨k, h1, h7, hk, hff⟩ := hs.pos_speed hp
    refine RampInvariant.of_forward (min (k + 1) 7) (by omega) (by omega) ?_
      ((hst.trans hst1).trans hff)
    rw [hsp, hv, hk]
    interval_cases k <;> norm_num

theorem constructedIntro_eq :
    create idleManager wavDirectory (some ("intro 45000".toList ++ [newline]))
      = some constructedIntro := by
  rfl

theorem startedIntro_eq : playChosenAudiobook constructedIntro = some startedIntro := by
  rfl

theorem playingIntro_reachable : Reachable playingIntro :=
  Reachable.reported startedIntro 0 true 46200
    (Reachable.pressed Action.playChosenAudiobook constructedIntro startedIntro
      (Reachable.constructed _ _ _ _ constructedIntro_eq) (by decide) startedIntro_eq)

theorem state_of_stop_available (st : State) (h : Action.stopAudiobook ∈ availableActions_ st) :
    st = State.PLAYING ∨ st = State.PAUSED := by
  cases st <;> simp [availableActions_] at h <;> simp

theorem state_of_play_available (st : State)
    (h : Action.playChosenAudiobook ∈ availableActions_ st) : st = State.CHOOSING := by
  cases st <;> simp [availableActions_] at h
  rfl

/-- C14: every reachable player state (the constructor's result, then bound actions taken
from the table of the current state, finished callbacks, timer passes and engine
reports, with pausability arbitrary) has ramp speed 0 or `±2^k` with `1 ≤ k ≤ 7`; the
speed is positive exactly in `FAST_FORWARDING`, negative exactly in `REWINDING`, and 0
in `CHOOSING`, `PLAYING` and `PAUSED`. -/
theorem ramp_invariant_reachable (s : AudiobookPlayer) (h : Reachable s) : RampInvariant s := by
  induction h with
  | constructed am path file s h =>
    obtain ⟨h0, hst⟩ := create_ramp am path file s h
    exact RampInvariant.of_idle h0 (Or.inl hst)
  | pressed a s s' _ ha h ih =>
    cases a with
    | switchToPreviousAudiobook =>
      exact RampInvariant.of_sameRamp (switchToPreviousAudiobook_sameRamp s s' h) ih
    | switchToNextAudiobook =>
      exact RampInvariant.of_sameRamp (switchToNextAudiobook_sameRamp s s' h) ih
    | playChosenAudiobook =>
      obtain ⟨hv, hst⟩ := playChosenAudiobook_ramp s s' h
      have hc := state_of_play_available _ ha
      exact RampInvariant.of_idle (hv.trans (ih.2.2.2 (Or.inl hc))) (Or.inr (Or.inl hst))
    | increaseMasterVolume => cases h; exact ih
    | decreaseMasterVolume => cases h; exact ih
    | rewind => exact rewind_invariant s s' ih h
    | fastForward => exact fastForward_invariant s s' ih h
    | pauseToggle =>
      rcases pauseToggle_cases s s' h with rfl | ⟨h0, hst⟩ | ⟨h0, hst⟩
      · exact ih
      · exact RampInvariant.of_idle h0 (Or.inr (Or.inl hst))
      · exact RampInvariant.of_idle h0 (Or.inr (Or.inr hst))
    | stopAudiobook =>
      obtain ⟨hv, hst⟩ := stopAudiobook_ramp s s' h
      have hc := state_of_stop_available _ ha
      exact RampInvariant.of_idle (hv.trans (ih.2.2.2 (Or.inr hc))) (Or.inl hst)
  | finished s s' _ h ih =>
    rcases audiobookFinishCallback_cases s s' h with rfl | ⟨hp, hv, hst⟩
    · exact ih
    · exact RampInvariant.of_idle (hv.trans (ih.2.2.2 (Or.inr (Or.inl hp)))) (Or.inl hst)
  | ticked s _ ih => exact RampInvariant.of_sameRamp (fastForwardingTimerTick_sameRamp s) ih
  | reported s p pausable position _ ih =>
    exact RampInvariant.of_sameRamp (engineReports_sameRamp s p pausable position) ih

/-- C14 at the player reached from `playingIntro` by two fast-forward presses (speed 4,
state `FAST_FORWARDING`). -/
theorem ramp_invariant_reachable_witness :
    rampFourIntro.fastForwardingSpeed_ = 4 ∧
    rampFourIntro.currentState_ = State.FAST_FORWARDING ∧ RampInvariant rampFourIntro :=
  ⟨by decide, by decide,
   ramp_invariant_reachable rampFourIntro
    (Reachable.pressed Action.fastForward rampTwoIntro rampFourIntro
      (Reachable.pressed Action.fastForward playingIntro rampTwoIntro
        playingIntro_reachable (by decide) (by rfl))
      (by decide) (by rfl))⟩

theorem cancelledRampIntro_reachable : Reachable cancelledRampIntro :=
  Reachable.pressed Action.rewind
    (fastForwardingTimerTick (fastForwardingTimerTick (fastForwardingTimerTick rampTwoIntro)))
    cancelledRampIntro
    (Reachable.ticked _ (Reachable.ticked _ (Reachable.ticked _
      (Reachable.pressed Action.fastForward playingIntro rampTwoIntro
        playingIntro_reachable (by decide) (by rfl)))))
    (by decide) (by rfl)

/-- C15: the code at a reachable state. After construction, play, 46.2 s of playback, a
fast-forward press, three timer passes and a rewind press at speed 2, the player is in
`PLAYING` with ramp speed 0 and the ramp has been applied (the audiobook task was
sought by 6000 ms), yet `fastForwardedSeconds_` is still 6; a following `pauseToggle()`
issues `seek(6000)` on the audiobook task a second time. -/
theorem cancelled_ramp_keeps_counter :
    Reachable cancelledRampIntro ∧
    cancelledRampIntro.currentState_ = State.PLAYING ∧
    cancelledRampIntro.fastForwardingSpeed_ = 0 ∧
    cancelledRampIntro.fastForwardedSeconds_ = 6 ∧
    (cancelledRampIntro.task? 0).map (fun T => T.calls)
      = some [TaskCall.pauseToggle, TaskCall.seek 6000, TaskCall.pauseToggle] ∧
    (pauseToggle cancelledRampIntro).map (fun s => (s.task? 0).map (fun T => T.calls))
      = some (some [TaskCall.pauseToggle, TaskCall.seek 6000, TaskCall.pauseToggle,
                    TaskCall.seek 6000, TaskCall.pauseToggle]) ∧
    (pauseToggle cancelledRampIntro).map (fun s => s.fastForwardedSeconds_) = some 0 :=
  ⟨cancelledRampIntro_reachable, by decide, by decide, by decide, by decide, by decide,
   by decide⟩

/-! ## Helper lemmas: lock discipline -/

theorem heldAfter_append (a : List LockEvent) : ∀ (held : Bool) (b : List LockEvent),
    heldAfter held (a ++ b) = (heldAfter held a).bind (fun h => heldAfter h b) := by
  induction a with
  | nil => intro held b; rfl
  | cons e a ih =>
    intro held b
    cases e with
    | lock => simpa [heldAfter] using ih true b
    | unlock => simpa [heldAfter] using ih false b
    | read m => cases held <;> simp [heldAfter, ih]
    | write m => cases held <;> simp [heldAfter, ih]

theorem heldAfter_then (a b : List LockEvent) (x y : Bool) (ha : heldAfter x a = some y) :
    heldAfter x (a ++ b) = heldAfter y b := by
  rw [heldAfter_append, ha]; rfl

theorem heldAfter_read (m : Member) (es : List LockEvent) :
    heldAfter true (LockEvent.read m :: es) = heldAfter true es := by
  simp [heldAfter]

theorem heldAfter_stopCurrent (s : AudiobookPlayer) :
    heldAfter true (stopCurrentAccesses s) = some true := by
  unfold stopCurrentAccesses; split <;> rfl

theorem heldAfter_checkedTask (s : AudiobookPlayer) :
    heldAfter true (checkedTaskAccesses s) = some true := by
  unfold checkedTaskAccesses; split
  · rfl
  · split <;> rfl

theorem heldAfter_startRamp (t : AudioTask) :
    heldAfter true (startRampAccesses t) = some true := by
  unfold startRampAccesses; split <;> rfl

theorem heldAfter_cancelRamp (m : Member) :
    heldAfter true (cancelRampAccesses m) = some true := rfl

theorem heldAfter_clamp (b : Bool) : heldAfter true (clampAccesses b) = some true := by
  cases b <;> rfl

theorem heldAfter_announce (s : AudiobookPlayer) (v two : Int) :
    heldAfter true (announceAccesses s v two) = some true := by
  unfold announceAccesses
  rw [heldAfter_read]
  split
  · rfl
  · rw [heldAfter_read]
    split
    · rw [heldAfter_then _ _ _ _ (heldAfter_stopCurrent s)]; rfl
    · rfl

/-- After a guarded piece `pre`, the clamp, the prompts and the closing release the lock
without an unguarded access. -/
theorem heldAfter_ramp_tail (s : AudiobookPlayer) (pre : List LockEvent) (b : Bool)
    (v two : Int) (hpre : heldAfter true pre = some true) :
    heldAfter true (pre ++ clampAccesses b ++ announceAccesses s v two ++ closingAccesses)
      = some false := by
  rw [heldAfter_then _ _ _ _ (by
    rw [heldAfter_then _ _ _ _ (by
      rw [heldAfter_then _ _ _ _ hpre]; exact heldAfter_clamp b)]
    exact heldAfter_announce s v two)]
  rfl

theorem disciplined_rewind (s : AudiobookPlayer) : disciplined (rewindAccesses s) = true := by
  unfold disciplined rewindAccesses
  rw [heldAfter_then [LockEvent.lock, LockEvent.read Member.fastForwardingSpeed_] _ false true rfl]
  split
  · rw [heldAfter_then _ _ _ _ (heldAfter_checkedTask s)]
    split
    · rfl
    · split
      · rfl
      · rw [heldAfter_ramp_tail _ _ _ _ _ (heldAfter_startRamp _)]; rfl
  · rw [heldAfter_read]
    split
    · rw [heldAfter_ramp_tail _ _ _ _ _ (heldAfter_cancelRamp _)]; rfl
    · rw [heldAfter_read]
      split
      · rw [heldAfter_ramp_tail _ [LockEvent.read Member.fastForwardingSpeed_,
          LockEvent.write Member.fastForwardingSpeed_] _ _ _ rfl]; rfl
      · rw [heldAfter_ramp_tail _ [LockEvent.read Member.fastForwardingSpeed_,
          LockEvent.read Member.fastForwardingSpeed_,
          LockEvent.write Member.fastForwardingSpeed_] _ _ _ rfl]; rfl

theorem disciplined_fastForward (s : AudiobookPlayer) :
    disciplined (fastForwardAccesses s) = true := by
  unfold disciplined fastForwardAccesses
  rw [heldAfter_then [LockEvent.lock, LockEvent.read Member.fastForwardingSpeed_] _ false true rfl]
  split
  · rw [heldAfter_then _ _ _ _ (heldAfter_checkedTask s)]
    split
    · rfl
    · split
      · rfl
      · rw [heldAfter_ramp_tail _ _ _ _ _ (heldAfter_startRamp _)]; rfl
  · rw [heldAfter_read]
    split
    · rw [heldAfter_ramp_tail _ _ _ _ _ (heldAfter_cancelRamp _)]; rfl
    · rw [heldAfter_read]
      split
      · rw [heldAfter_ramp_tail _ [LockEvent.read Member.fastForwardingSpeed_,
          LockEvent.write Member.fastForwardingSpeed_] _ _ _ rfl]; rfl
      · rw [heldAfter_ramp_tail _ [LockEvent.read Member.fastForwardingSpeed_,
          LockEvent.read Member.fastForwardingSpeed_,
          LockEvent.write Member.fastForwardingSpeed_] _ _ _ rfl]; rfl

theorem disciplined_selection (s : AudiobookPlayer) :
    disciplined (playChosenAudiobookAccesses s) = true ∧
    disciplined (switchToNextAudiobookAccesses s) = true ∧
    disciplined (switchToPreviousAudiobookAccesses s) = true ∧
    disciplined (stopAudiobookAccesses s) = true := by
  refine ⟨?_, ?_, ?_, ?_⟩
  · unfold disciplined playChosenAudiobookAccesses
    rw [heldAfter_then _ _ false true (by
      rw [heldAfter_then [LockEvent.lock, LockEvent.write Member.currentState_,
        LockEvent.read Member.currentTrackIndex_] _ false true rfl]
      exact heldAfter_stopCurrent s)]
    rfl
  · unfold disciplined switchToNextAudiobookAccesses
    rw [heldAfter_then _ _ false true (by
      rw [heldAfter_then _ _ false true (by
        rw [heldAfter_then [LockEvent.lock, LockEvent.read Member.currentTrackIndex_] _
          false true rfl]
        split <;> rfl)]
      exact heldAfter_stopCurrent s)]
    rfl
  · unfold disciplined switchToPreviousAudiobookAccesses
    rw [heldAfter_then _ _ false true (by
      rw [heldAfter_then _ _ false true (by
        rw [heldAfter_then [LockEvent.lock, LockEvent.read Member.currentTrackIndex_] _
          false true rfl]
        split <;> rfl)]
      exact heldAfter_stopCurrent s)]
    rfl
  · unfold disciplined stopAudiobookAccesses
    rw [heldAfter_then _ _ false true (by
      rw [heldAfter_then [LockEvent.lock, LockEvent.read Member.currentAudioTask_] _
        false true rfl]
      split <;> rfl)]
    rfl

theorem pauseTest_head (s : AudiobookPlayer) :
    ∃ rest, pauseTestAccesses s = LockEvent.read Member.currentState_ :: rest := by
  unfold pauseTestAccesses
  split
  · exact ⟨_, rfl⟩
  · split <;> exact ⟨_, rfl⟩

theorem timer_undisciplined (passes : Nat) :
    disciplined (fastForwardingTimerFunctionAccesses passes) = false := rfl

theorem pauseToggle_undisciplined (s : AudiobookPlayer) :
    disciplined (pauseToggleAccesses s) = false := by
  obtain ⟨rest, h⟩ := pauseTest_head s
  unfold disciplined pauseToggleAccesses
  rw [h]
  rfl

theorem pauseToggle_never_locks (s : AudiobookPlayer) :
    LockEvent.lock ∉ pauseToggleAccesses s ∧ LockEvent.unlock ∉ pauseToggleAccesses s := by
  have htest : LockEvent.lock ∉ pauseTestAccesses s ∧ LockEvent.unlock ∉ pauseTestAccesses s := by
    unfold pauseTestAccesses
    split
    · simp
    · split <;> simp
  unfold pauseToggleAccesses
  constructor
  · intro h
    rcases List.mem_append.mp h with h | h
    · exact htest.1 h
    · split at h
      · rcases List.mem_cons.mp h with h | h
        · cases h
        · split at h
          · cases h
          · rcases List.mem_cons.mp h with h | h
            · cases h
            · split at h
              · cases h
              · split at h
                · cases h
                · simp at h
      · rcases List.mem_cons.mp h with h | h
        · cases h
        · split at h
          · cases h
          · rcases List.mem_cons.mp h with h | h
            · cases h
            · split at h
              · cases h
              · split at h
                · cases h
                · simp at h
  · intro h
    rcases List.mem_append.mp h with h | h
    · exact htest.2 h
    · split at h
      · rcases List.mem_cons.mp h with h | h
        · cases h
        · split at h
          · cases h
          · rcases List.mem_cons.mp h with h | h
            · cases h
            · split at h
              · cases h
              · split at h
                · cases h
                · simp at h
      · rcases List.mem_cons.mp h with h | h
        · cases h
        · split at h
          · cases h
          · rcases List.mem_cons.mp h with h | h
            · cases h
            · split at h
              · cases h
              · split at h
                · cases h
                · simp at h

/-- C13: the accesses of the bound actions and of the timer thread, in program order.
`playChosenAudiobook`, `switchToNextAudiobook`, `switchToPreviousAudiobook`, `rewind`,
`fastForward` and `stopAudiobook` touch the guarded members only while holding
`mutex_`; `pauseToggle` never locks or unlocks and its first access, the read of
`currentState_`, is unguarded; in each pass of the timer loop the loop test and
`fastForwardedSeconds_ += fastForwardingSpeed_` come before the lock is taken. -/
theorem lock_discipline_of_actions (s : AudiobookPlayer) (passes : Nat) :
    disciplined (playChosenAudiobookAccesses s) = true ∧
    disciplined (switchToNextAudiobookAccesses s) = true ∧
    disciplined (switchToPreviousAudiobookAccesses s) = true ∧
    disciplined (stopAudiobookAccesses s) = true ∧
    disciplined (rewindAccesses s) = true ∧
    disciplined (fastForwardAccesses s) = true ∧
    disciplined (pauseToggleAccesses s) = false ∧
    LockEvent.lock ∉ pauseToggleAccesses s ∧
    timerPassAccesses.takeWhile (fun e => e != LockEvent.lock)
      = [LockEvent.read Member.fastForwardingSpeed_,
         LockEvent.read Member.fastForwardingSpeed_,
         LockEvent.read Member.fastForwardedSeconds_,
         LockEvent.write Member.fastForwardedSeconds_] ∧
    heldAfter false timerPassAccesses = none ∧
    disciplined (fastForwardingTimerFunctionAccesses passes) = false := by
  obtain ⟨h1, h2, h3, h4⟩ := disciplined_selection s
  exact ⟨h1, h2, h3, h4, disciplined_rewind s, disciplined_fastForward s,
    pauseToggle_undisciplined s, (pauseToggle_never_locks s).1, by decide, rfl,
    timer_undisciplined passes⟩

theorem pausedIntro_reachable : Reachable pausedIntro :=
  Reachable.pressed Action.pauseToggle playingIntro pausedIntro playingIntro_reachable
    (by decide) (by rfl)

end Pdb
